import Mathlib

/-!
Shallow embedding of the FLAC decoder core of `esp-audio-libs`
(`src/src/decode/flac/flac_decoder.cpp`, `src/src/decode/flac/flac_lpc.cpp`,
`src/include/flac_decoder.h`) together with theorems settling the claims
about its specification.

Modelling conventions:
* machine integers are `Nat` (unsigned) and `Int` (signed) with explicit
  wrap-around (`% 2^32`, `wrap32`, `wrap64`) wherever C overflow semantics
  matter;
* C bitwise ops are modelled with fuel-bounded structural recursions
  (`landAux`, `lorAux`, `lxorAux`) so that every definition reduces in the
  kernel;
* unbounded C `while` loops are modelled with explicit fuel; each call site
  passes fuel that provably dominates the loop (the loops consume input
  bytes, so `bytes_left` based fuel suffices);
* the C fields `partial_header_*` are called `resume_header_*` here;
* writes to the caller's output buffer (the `write_samples_*` family) do not
  affect the decoder state or any result code and are not modelled.
-/

-- ============================================================================
-- Bit-level helpers
-- ============================================================================

/-- Bitwise AND on the low `fuel` bits, by structural recursion (kernel-reducible). -/
def landAux : Nat → Nat → Nat → Nat
  | 0, _, _ => 0
  | fuel+1, a, b => (if a % 2 = 1 ∧ b % 2 = 1 then 1 else 0) + 2 * landAux fuel (a / 2) (b / 2)

/-- Bitwise OR on the low `fuel` bits. -/
def lorAux : Nat → Nat → Nat → Nat
  | 0, _, _ => 0
  | fuel+1, a, b => (if a % 2 = 1 ∨ b % 2 = 1 then 1 else 0) + 2 * lorAux fuel (a / 2) (b / 2)

/-- Bitwise XOR on the low `fuel` bits. -/
def lxorAux : Nat → Nat → Nat → Nat
  | 0, _, _ => 0
  | fuel+1, a, b => (if (a % 2 = 1) ≠ (b % 2 = 1) then 1 else 0) + 2 * lxorAux fuel (a / 2) (b / 2)

/-- 64-bit bitwise AND. -/
def uand (a b : Nat) : Nat := landAux 64 a b

/-- 64-bit bitwise OR. -/
def uor (a b : Nat) : Nat := lorAux 64 a b

/-- 64-bit bitwise XOR. -/
def uxor (a b : Nat) : Nat := lxorAux 64 a b

/-- Number of bits of `n` (position of the highest set bit plus one), with fuel;
`bitsAux 64` is exact for every value below `2^64`.  This models
`64 - __builtin_clzll` on a `uint64_t` operand. -/
def bitsAux : Nat → Nat → Nat
  | 0, _ => 0
  | fuel+1, n => if n = 0 then 0 else bitsAux fuel (n / 2) + 1

/-- Reinterpret a `uint32` value as a signed 32-bit integer (two's complement). -/
def toInt32 (n : Nat) : Int :=
  if n % 4294967296 < 2147483648 then ((n % 4294967296 : Nat) : Int)
  else ((n % 4294967296 : Nat) : Int) - 4294967296

/-- Reinterpret a `uint64` value as a signed 64-bit integer (two's complement). -/
def toInt64 (n : Nat) : Int :=
  if n % 18446744073709551616 < 9223372036854775808 then ((n % 18446744073709551616 : Nat) : Int)
  else ((n % 18446744073709551616 : Nat) : Int) - 18446744073709551616

/-- Wrap-around of signed 32-bit arithmetic (two's complement). -/
def wrap32 (x : Int) : Int := (x + 2147483648) % 4294967296 - 2147483648

/-- Wrap-around of signed 64-bit arithmetic (two's complement). -/
def wrap64 (x : Int) : Int :=
  (x + 9223372036854775808) % 18446744073709551616 - 9223372036854775808

/-- Arithmetic right shift of a signed value (`>>` on a signed C operand):
floor division by `2^s`. -/
def asr (x : Int) (s : Nat) : Int := Int.fdiv x (2 ^ s)

-- ============================================================================
-- flac_lpc.cpp : overflow analysis and linear-prediction restoration
-- ============================================================================

/-- `bitmath_silog2` from `flac_lpc.cpp`: the number of bits needed to
represent a signed `int64_t` value, including the sign bit. -/
def bitmath_silog2 (v : Int) : Nat :=
  if v = 0 then 0
  else if v = -1 then 2
  else if v = -9223372036854775808 then 64
  else bitsAux 64 v.natAbs + 1

/-- Sum of `std::abs` of the first `order` coefficients accumulated in a
`uint32_t` (wrapping mod `2^32`), as in `lpc_max_prediction_value_before_shift`. -/
def absSumCoeffs (qlp_coeff : List Int) (order : Nat) : Nat :=
  (qlp_coeff.take order).foldl (fun a c => (a + c.natAbs) % 4294967296) 0

/-- `lpc_max_prediction_value_before_shift`: `uint64_t` product of the largest
absolute sample value for the bit depth and the absolute coefficient sum. -/
def lpc_max_prediction_value_before_shift (subframe_bps : Nat) (qlp_coeff : List Int)
    (order : Nat) : Nat :=
  let max_abs_sample_value := 2 ^ (subframe_bps - 1) % 18446744073709551616
  max_abs_sample_value * absSumCoeffs qlp_coeff order % 18446744073709551616

/-- `lpc_max_prediction_before_shift_bps`. -/
def lpc_max_prediction_before_shift_bps (subframe_bps : Nat) (qlp_coeff : List Int)
    (order : Nat) : Nat :=
  bitmath_silog2 (toInt64 (lpc_max_prediction_value_before_shift subframe_bps qlp_coeff order))

/-- `lpc_max_residual_bps`: signed bit width of the largest possible residual. -/
def lpc_max_residual_bps (subframe_bps : Nat) (qlp_coeff : List Int) (order : Nat)
    (lp_quantization : Nat) : Nat :=
  let max_abs_sample_value := 2 ^ (subframe_bps - 1) % 18446744073709551616
  let max_pred_before_shift :=
    toInt64 (lpc_max_prediction_value_before_shift subframe_bps qlp_coeff order)
  let max_prediction_value_after_shift :=
    (wrap64 (-(asr (wrap64 (-max_pred_before_shift)) lp_quantization))).emod 18446744073709551616
  let max_residual_value :=
    (max_abs_sample_value + max_prediction_value_after_shift.toNat) % 18446744073709551616
  bitmath_silog2 (toInt64 max_residual_value)

/-- `can_use_32bit_lpc` from `flac_lpc.cpp`: 32-bit arithmetic is declared safe
iff both the residual width and the pre-shift prediction width fit 32 bits.
The C `int shift` parameter is only ever used nonnegative; it is a `Nat` here. -/
def can_use_32bit_lpc (sample_depth : Nat) (coefs : List Int) (order : Nat)
    (shift : Nat) : Bool :=
  decide (lpc_max_residual_bps sample_depth coefs order shift ≤ 32) &&
  decide (lpc_max_prediction_before_shift_bps sample_depth coefs order ≤ 32)

/-- Inner accumulation loop of `restore_linear_prediction_32bit`:
`int32_t sum` accumulates `sub_frame_buffer[i+j] * coefs[j]` with 32-bit wrap. -/
def lpcSumAux32 (buf : List Int) : List Int → Nat → Int → Int
  | [], _, acc => acc
  | c :: cs, j, acc => lpcSumAux32 buf cs (j + 1) (wrap32 (acc + wrap32 (buf.getD j 0 * c)))

/-- Inner accumulation loop of `restore_linear_prediction_64bit`:
`int64_t sum` accumulates exact products of `int32_t` operands with 64-bit wrap. -/
def lpcSumAux64 (buf : List Int) : List Int → Nat → Int → Int
  | [], _, acc => acc
  | c :: cs, j, acc => lpcSumAux64 buf cs (j + 1) (wrap64 (acc + wrap64 (buf.getD j 0 * c)))

/-- Outer loop of `restore_linear_prediction_32bit`: at step `i` the predicted
value `sum >> shift` is added (with `int32_t` wrap) to the residual at index
`i + order`. -/
def restoreAux32 (coefs : List Int) (shift : Nat) : Nat → Nat → List Int → List Int
  | _, 0, buf => buf
  | i, steps+1, buf =>
    let sum := lpcSumAux32 buf coefs i 0
    let idx := i + coefs.length
    restoreAux32 coefs shift (i + 1) steps (buf.set idx (wrap32 (buf.getD idx 0 + asr sum shift)))

/-- Outer loop of `restore_linear_prediction_64bit`: the 64-bit sum is shifted,
truncated to `int32_t`, and added (with `int32_t` wrap) to the residual. -/
def restoreAux64 (coefs : List Int) (shift : Nat) : Nat → Nat → List Int → List Int
  | _, 0, buf => buf
  | i, steps+1, buf =>
    let sum := lpcSumAux64 buf coefs i 0
    let idx := i + coefs.length
    restoreAux64 coefs shift (i + 1) steps
      (buf.set idx (wrap32 (buf.getD idx 0 + wrap32 (asr sum shift))))

/-- `restore_linear_prediction_32bit` (C++ reference implementation path). -/
def restore_linear_prediction_32bit (buf : List Int) (num_of_samples : Nat)
    (coefs : List Int) (shift : Nat) : List Int :=
  restoreAux32 coefs shift 0 (num_of_samples - coefs.length) buf

/-- `restore_linear_prediction_64bit` (C++ reference implementation path). -/
def restore_linear_prediction_64bit (buf : List Int) (num_of_samples : Nat)
    (coefs : List Int) (shift : Nat) : List Int :=
  restoreAux64 coefs shift 0 (num_of_samples - coefs.length) buf

/-- The dispatch used by `decode_fixed_subframe` and `decode_lpc_subframe`:
the 32-bit routine is selected exactly when `can_use_32bit_lpc` returns true. -/
def restore_linear_prediction_dispatch (sample_depth : Nat) (buf : List Int)
    (num_of_samples : Nat) (coefs : List Int) (shift : Nat) : List Int :=
  if can_use_32bit_lpc sample_depth coefs coefs.length shift then
    restore_linear_prediction_32bit buf num_of_samples coefs shift
  else
    restore_linear_prediction_64bit buf num_of_samples coefs shift

-- ============================================================================
-- Result codes and metadata blocks (flac_decoder.h)
-- ============================================================================

/-- `FLACDecoderResult` from `flac_decoder.h`.  (In the C header
`FLAC_DECODER_ERROR_BAD_SAMPLE_DEPTH` and `FLAC_DECODER_ERROR_METADATA_TOO_LARGE`
share the numeric value 16; they are distinct constructors here, which is
irrelevant to every comparison the code performs.) -/
inductive FLACDecoderResult where
  | FLAC_DECODER_SUCCESS
  | FLAC_DECODER_NO_MORE_FRAMES
  | FLAC_DECODER_HEADER_OUT_OF_DATA
  | FLAC_DECODER_ERROR_OUT_OF_DATA
  | FLAC_DECODER_ERROR_BAD_MAGIC_NUMBER
  | FLAC_DECODER_ERROR_SYNC_NOT_FOUND
  | FLAC_DECODER_ERROR_BAD_BLOCK_SIZE_CODE
  | FLAC_DECODER_ERROR_BAD_HEADER
  | FLAC_DECODER_ERROR_RESERVED_CHANNEL_ASSIGNMENT
  | FLAC_DECODER_ERROR_BAD_SAMPLE_DEPTH
  | FLAC_DECODER_ERROR_RESERVED_SUBFRAME_TYPE
  | FLAC_DECODER_ERROR_BAD_FIXED_PREDICTION_ORDER
  | FLAC_DECODER_ERROR_RESERVED_RESIDUAL_CODING_METHOD
  | FLAC_DECODER_ERROR_BLOCK_SIZE_NOT_DIVISIBLE_RICE
  | FLAC_DECODER_ERROR_MEMORY_ALLOCATION_ERROR
  | FLAC_DECODER_ERROR_BLOCK_SIZE_OUT_OF_RANGE
  | FLAC_DECODER_ERROR_CRC_MISMATCH
  | FLAC_DECODER_ERROR_METADATA_TOO_LARGE
  deriving DecidableEq, Repr

export FLACDecoderResult (FLAC_DECODER_SUCCESS FLAC_DECODER_NO_MORE_FRAMES
  FLAC_DECODER_HEADER_OUT_OF_DATA FLAC_DECODER_ERROR_OUT_OF_DATA
  FLAC_DECODER_ERROR_BAD_MAGIC_NUMBER FLAC_DECODER_ERROR_SYNC_NOT_FOUND
  FLAC_DECODER_ERROR_BAD_BLOCK_SIZE_CODE FLAC_DECODER_ERROR_BAD_HEADER
  FLAC_DECODER_ERROR_RESERVED_CHANNEL_ASSIGNMENT FLAC_DECODER_ERROR_BAD_SAMPLE_DEPTH
  FLAC_DECODER_ERROR_RESERVED_SUBFRAME_TYPE FLAC_DECODER_ERROR_BAD_FIXED_PREDICTION_ORDER
  FLAC_DECODER_ERROR_RESERVED_RESIDUAL_CODING_METHOD
  FLAC_DECODER_ERROR_BLOCK_SIZE_NOT_DIVISIBLE_RICE
  FLAC_DECODER_ERROR_MEMORY_ALLOCATION_ERROR FLAC_DECODER_ERROR_BLOCK_SIZE_OUT_OF_RANGE
  FLAC_DECODER_ERROR_CRC_MISMATCH FLAC_DECODER_ERROR_METADATA_TOO_LARGE)

/-- `FLACMetadataBlock` from `flac_decoder.h` (`type` kept as its raw 7-bit code). -/
structure FLACMetadataBlock where
  type : Nat
  length : Nat
  data : List Nat
  deriving DecidableEq, Repr

/-- Decoder state: the private fields of class `FLACDecoder`.
The C fields `partial_header_*` are named `resume_header_*` here. -/
structure St where
  buffer : List Nat := []
  buffer_index : Nat := 0
  bytes_left : Nat := 0
  frame_start_index : Nat := 0
  bit_buffer : Nat := 0
  bit_buffer_length : Nat := 0
  min_block_size : Nat := 0
  max_block_size : Nat := 0
  sample_rate : Nat := 0
  num_channels : Nat := 0
  sample_depth : Nat := 0
  num_samples : Nat := 0
  md5_signature : List Nat := List.replicate 16 0
  curr_frame_block_size : Nat := 0
  curr_frame_channel_assign : Nat := 0
  curr_frame_sample_depth : Nat := 0
  block_samples : List Int := []
  out_of_data : Bool := false
  enable_crc_check : Bool := true
  output_32bit_samples : Bool := false
  resume_header_read : Bool := false
  resume_header_last : Bool := false
  resume_header_type : Nat := 0
  resume_header_length : Nat := 0
  resume_header_bytes_read : Nat := 0
  resume_header_data : List Nat := []
  metadata_blocks : List FLACMetadataBlock := []
  max_padding_size : Nat := 0
  max_application_size : Nat := 0
  max_seektable_size : Nat := 0
  max_vorbis_comment_size : Nat := 2048
  max_cuesheet_size : Nat := 0
  max_album_art_size : Nat := 0
  max_unknown_size : Nat := 0
  deriving DecidableEq, Repr

-- ============================================================================
-- Bit stream reading (flac_decoder.cpp)
-- ============================================================================

/-- Byte `idx` of the input buffer (inputs are bytes, masked to 8 bits). -/
def byteAt (s : St) (idx : Nat) : Nat := s.buffer.getD idx 0 % 256

/-- The byte-by-byte tail loop of `refill_bit_buffer` (fewer than 4 bytes left):
`bit_buffer_ = (bit_buffer_ << 8) | next_byte` repeated. -/
def loadTailBytes (s : St) : Nat → St
  | 0 => s
  | k+1 =>
    loadTailBytes
      { s with
        bit_buffer := uor (s.bit_buffer * 256 % 4294967296) (byteAt s s.buffer_index),
        buffer_index := s.buffer_index + 1 } k

/-- `refill_bit_buffer`: loads 4 bytes big-endian when available, otherwise all
remaining bytes; returns `true` iff nothing could be loaded. -/
def refill_bit_buffer (s : St) : St × Bool :=
  if s.bytes_left ≥ 4 then
    let w := ((byteAt s s.buffer_index * 256 + byteAt s (s.buffer_index + 1)) * 256 +
              byteAt s (s.buffer_index + 2)) * 256 + byteAt s (s.buffer_index + 3)
    ({ s with bit_buffer := w, bit_buffer_length := 32,
              buffer_index := s.buffer_index + 4, bytes_left := s.bytes_left - 4 }, false)
  else if s.bytes_left > 0 then
    let s' := loadTailBytes s s.bytes_left
    ({ s' with bit_buffer_length := 8 * s.bytes_left, bytes_left := 0 }, false)
  else (s, true)

/-- `read_uint`: returns the next `num_bits` bits MSB-first; on underrun sets
`out_of_data` and returns 0 without consuming anything. -/
def read_uint (s : St) (numBits : Nat) : St × Nat :=
  if numBits > s.bit_buffer_length then
    let newBitsNeeded := numBits - s.bit_buffer_length
    let bytesNeeded := (newBitsNeeded + 7) / 8
    if s.bytes_left < bytesNeeded then ({ s with out_of_data := true }, 0)
    else
      let result0 := if newBitsNeeded < 32 then s.bit_buffer * 2 ^ newBitsNeeded % 4294967296 else 0
      let s1 := (refill_bit_buffer s).1
      let s2 := { s1 with bit_buffer_length := s1.bit_buffer_length - newBitsNeeded }
      (s2, uor result0 (s2.bit_buffer / 2 ^ s2.bit_buffer_length) % 2 ^ min numBits 32)
  else
    let s' := { s with bit_buffer_length := s.bit_buffer_length - numBits }
    (s', s.bit_buffer / 2 ^ s'.bit_buffer_length % 2 ^ min numBits 32)

/-- `read_aligned_byte` (the C code asserts byte alignment; behaviour is that of
`read_uint(8)`). -/
def read_aligned_byte (s : St) : St × Nat := read_uint s 8

/-- `align_to_byte`: discard bits down to the previous byte boundary. -/
def align_to_byte (s : St) : St :=
  if s.bit_buffer_length ≥ 8 then
    { s with bit_buffer_length := s.bit_buffer_length - s.bit_buffer_length % 8 }
  else { s with bit_buffer_length := 0 }

/-- `reset_bit_buffer`: push whole unconsumed bytes of the bit buffer back onto
the input counters (the C code asserts `bit_buffer_length_ % 8 == 0`). -/
def reset_bit_buffer (s : St) : St :=
  { s with buffer_index := s.buffer_index - s.bit_buffer_length / 8,
           bytes_left := s.bytes_left + s.bit_buffer_length / 8,
           bit_buffer_length := 0, bit_buffer := 0 }

/-- `read_sint`: two's-complement signed read.  `num_bits > 32` (only 33 occurs)
reads 64 bits worth, sign-extends, and truncates to `int32_t`. -/
def read_sint (s : St) (numBits : Nat) : St × Int :=
  if numBits > 32 then
    let (s1, upper) := read_uint s (numBits - 32)
    let (s2, lower) := read_uint s1 32
    let value := uor (upper * 4294967296) lower
    let signed : Int :=
      if value / 2 ^ (numBits - 1) % 2 = 1 then (value : Int) - 2 ^ numBits else (value : Int)
    (s2, toInt32 (signed.emod 4294967296).toNat)
  else
    let (s', n) := read_uint s numBits
    if numBits = 32 then (s', toInt32 n)
    else (s', (n : Int) - (n : Int) / 2 ^ (numBits - 1) * 2 ^ numBits)

/-- The unary-prefix loop of `read_rice_sint`, with fuel.  Returns `none` when
`refill_bit_buffer` fails (out of data); fuel exhaustion cannot occur for the
fuel chosen at the call site and is mapped to `none` as well. -/
def riceUnaryLoop : Nat → St → Nat → (St × Option Nat)
  | 0, s, _ => (s, none)
  | fuel+1, s, unary =>
    let step : St × Bool :=
      if s.bit_buffer_length = 0 then refill_bit_buffer s else (s, false)
    if step.2 then (step.1, none)
    else
      let s1 := step.1
      let shifted := s1.bit_buffer * 2 ^ (32 - s1.bit_buffer_length) % 4294967296
      if shifted = 0 then
        riceUnaryLoop fuel { s1 with bit_buffer_length := 0 } (unary + s1.bit_buffer_length)
      else
        let leading_zeros := 32 - bitsAux 64 shifted
        ({ s1 with bit_buffer_length := s1.bit_buffer_length - (leading_zeros + 1) },
         some (unary + leading_zeros))

/-- `read_rice_sint`: unary prefix, `param` binary bits, zig-zag decode. -/
def read_rice_sint (s : St) (param : Nat) : St × Int :=
  match riceUnaryLoop (s.bytes_left + 2) s 0 with
  | (s', none) => ({ s' with out_of_data := true }, 0)
  | (s', some unary) =>
    let (s2, binary) := read_uint s' param
    let value := uor (unary * 2 ^ param % 4294967296) binary
    (s2, toInt32 (uxor (value / 2) (if value % 2 = 1 then 4294967295 else 0)))

-- ============================================================================
-- Residual decoding (FLACDecoder::decode_residuals)
-- ============================================================================

/-- Read `count` Rice-coded signed residuals. -/
def riceLoop (param : Nat) : Nat → St → St × List Int
  | 0, s => (s, [])
  | k+1, s =>
    let (s1, v) := read_rice_sint s param
    let (s2, vs) := riceLoop param k s1
    (s2, v :: vs)

/-- Read `count` signed values of `numBits` bits. -/
def sintLoop (numBits : Nat) : Nat → St → St × List Int
  | 0, s => (s, [])
  | k+1, s =>
    let (s1, v) := read_sint s numBits
    let (s2, vs) := sintLoop numBits k s1
    (s2, v :: vs)

/-- One Rice partition: read the Rice parameter; an escaped partition reads a
5-bit raw width, emitting zeros when the width is 0 and raw signed values
otherwise. -/
def readResidualPartition (s : St) (paramBits escapeParam count : Nat) : St × List Int :=
  let (s1, param) := read_uint s paramBits
  if param < escapeParam then riceLoop param count s1
  else
    let (s2, numBits) := read_uint s1 5
    if numBits = 0 then (s2, List.replicate count 0)
    else sintLoop numBits count s2

/-- Partitions `1 .. num_partitions-1`, each of `count` residuals. -/
def residualPartitionsLoop (paramBits escapeParam count : Nat) : Nat → St → St × List Int
  | 0, s => (s, [])
  | k+1, s =>
    let (s1, xs) := readResidualPartition s paramBits escapeParam count
    let (s2, ys) := residualPartitionsLoop paramBits escapeParam count k s1
    (s2, xs ++ ys)

/-- Body of `decode_residuals` once the 2-bit method has been read and found
to be 0 (4-bit Rice parameters, escape 0xF) or 1 (5-bit, escape 0x1F).
Returns the residuals written after the warm-up samples. -/
def decodeResidualsWithMethod (s : St) (paramBits escapeParam warm_up_samples block_size : Nat) :
    St × FLACDecoderResult × List Int :=
  let (s1, partition_order) := read_uint s 4
  let num_partitions := 2 ^ partition_order
  if block_size % num_partitions ≠ 0 then
    (s1, FLAC_DECODER_ERROR_BLOCK_SIZE_NOT_DIVISIBLE_RICE, [])
  else
    let count0 := block_size / 2 ^ partition_order - warm_up_samples
    let (s2, xs) := readResidualPartition s1 paramBits escapeParam count0
    let (s3, ys) :=
      residualPartitionsLoop paramBits escapeParam (block_size / 2 ^ partition_order)
        (num_partitions - 1) s2
    (s3, FLAC_DECODER_SUCCESS, xs ++ ys)

/-- `FLACDecoder::decode_residuals`.  A 2-bit method value of 2 or 3 yields
`RESERVED_RESIDUAL_CODING_METHOD`.  The residuals are returned as a list; the
C code writes them into `sub_frame_buffer` starting at `warm_up_samples`. -/
def decode_residuals (s : St) (warm_up_samples block_size : Nat) :
    St × FLACDecoderResult × List Int :=
  let (s1, method) := read_uint s 2
  if method ≥ 2 then (s1, FLAC_DECODER_ERROR_RESERVED_RESIDUAL_CODING_METHOD, [])
  else if method = 1 then decodeResidualsWithMethod s1 5 31 warm_up_samples block_size
  else decodeResidualsWithMethod s1 4 15 warm_up_samples block_size

-- ============================================================================
-- Subframe decoding
-- ============================================================================

/-- `FIXED_COEFFICIENTS` from `flac_decoder.cpp`. -/
def fixedCoefficients : Nat → List Int
  | 1 => [1]
  | 2 => [-1, 2]
  | 3 => [1, -3, 3]
  | 4 => [-1, 4, -6, 4]
  | _ => []

/-- Write `vals` into `l` starting at index `off` (sequential `int32_t` stores). -/
def setSlice (l : List Int) (off : Nat) : List Int → List Int
  | [] => l
  | v :: vs => setSlice (l.set off v) (off + 1) vs

/-- Read `count` signed values of `numBits` bits in sequence. -/
def readSints (numBits : Nat) : Nat → St → St × List Int
  | 0, s => (s, [])
  | k+1, s =>
    let (s1, v) := read_sint s numBits
    let (s2, vs) := readSints numBits k s1
    (s2, v :: vs)

/-- `FLACDecoder::decode_fixed_subframe`.  Warm-up samples and residuals are
assembled into the subframe region, restored with the fixed coefficients
(quantization level 0), and written back at `block_samples_offset`. -/
def decode_fixed_subframe (s : St) (block_size block_samples_offset pre_order sample_depth : Nat) :
    St × FLACDecoderResult :=
  if pre_order > 4 then (s, FLAC_DECODER_ERROR_BAD_FIXED_PREDICTION_ORDER)
  else
    let (s1, warmups) := readSints sample_depth pre_order s
    let s1 := { s1 with block_samples := setSlice s1.block_samples block_samples_offset warmups }
    let (s2, r, residuals) := decode_residuals s1 pre_order block_size
    if r ≠ FLAC_DECODER_SUCCESS then (s2, r)
    else
      let region := warmups ++ residuals
      let restored :=
        restore_linear_prediction_dispatch sample_depth region block_size
          (fixedCoefficients pre_order) 0
      ({ s2 with block_samples := setSlice s2.block_samples block_samples_offset restored },
       FLAC_DECODER_SUCCESS)

/-- `FLACDecoder::decode_lpc_subframe`.  Reads `precision:4 + 1`, a signed
5-bit quantization shift, the coefficients in reversed order, then residuals,
and restores.  (A negative shift is undefined behaviour in the C code; the
model clamps it to 0 via `Int.toNat`.) -/
def decode_lpc_subframe (s : St) (block_size block_samples_offset lpc_order sample_depth : Nat) :
    St × FLACDecoderResult :=
  let (s1, warmups) := readSints sample_depth lpc_order s
  let s1 := { s1 with block_samples := setSlice s1.block_samples block_samples_offset warmups }
  let (s2, precision0) := read_uint s1 4
  let precision := precision0 + 1
  let (s3, qshift) := read_sint s2 5
  let (s4, coefsRev) := readSints precision lpc_order s3
  let coefs := coefsRev.reverse
  let (s5, r, residuals) := decode_residuals s4 lpc_order block_size
  if r ≠ FLAC_DECODER_SUCCESS then (s5, r)
  else
    let region := warmups ++ residuals
    let restored :=
      restore_linear_prediction_dispatch sample_depth region block_size coefs qshift.toNat
    ({ s5 with block_samples := setSlice s5.block_samples block_samples_offset restored },
     FLAC_DECODER_SUCCESS)

/-- The wasted-bits unary loop of `decode_subframe`: having seen an initial 1
bit, count additional zero bits until the terminating 1 bit; `none` on data
underrun (the C code returns `OUT_OF_DATA` there). -/
def wastedLoop : Nat → St → Nat → St × Option Nat
  | 0, s, _ => (s, none)
  | fuel+1, s, shift =>
    let (s1, b) := read_uint s 1
    if b = 0 then
      if s1.out_of_data then (s1, none) else wastedLoop fuel s1 (shift + 1)
    else (s1, some shift)

/-- Map the wasted-bits shift over the subframe region
(`block_samples_[off+i] <<= shift` for `i < block_size`). -/
def shiftRegion (l : List Int) (off block_size shift : Nat) : List Int :=
  setSlice l off (((l.drop off).take block_size).map fun x => wrap32 (x * 2 ^ shift))

/-- `FLACDecoder::decode_subframe`, additionally exposing the parsed
wasted-bits shift (needed to state the wasted-bits claims).  The effective
sample depth is `sample_depth - shift` computed in `uint32_t` arithmetic.
`subframeTypeDispatch` is the type dispatch after the wasted-bits loop. -/
def effDepth (sample_depth shift : Nat) : Nat :=
  (sample_depth + 4294967296 - shift % 4294967296) % 4294967296

def subframeTypeDispatch (s4 : St) (block_size sample_depth block_samples_offset ty shift : Nat) :
    St × FLACDecoderResult × Nat :=
  if ty = 0 then
    let (s5, v) := read_sint s4 (effDepth sample_depth shift)
    let value := wrap32 (v * 2 ^ shift)
    let bsNew := setSlice s5.block_samples block_samples_offset (List.replicate block_size value)
    ({ s5 with block_samples := bsNew }, FLAC_DECODER_SUCCESS, shift)
  else if ty = 1 then
    let (s5, vs) := readSints (effDepth sample_depth shift) block_size s4
    let bsNew :=
      setSlice s5.block_samples block_samples_offset (vs.map fun v => wrap32 (v * 2 ^ shift))
    ({ s5 with block_samples := bsNew }, FLAC_DECODER_SUCCESS, shift)
  else if 8 ≤ ty ∧ ty ≤ 12 then
    let (s5, r) := decode_fixed_subframe s4 block_size block_samples_offset (ty - 8)
      (effDepth sample_depth shift)
    if r ≠ FLAC_DECODER_SUCCESS then (s5, r, shift)
    else if shift > 0 then
      ({ s5 with block_samples := shiftRegion s5.block_samples block_samples_offset block_size shift },
       FLAC_DECODER_SUCCESS, shift)
    else (s5, FLAC_DECODER_SUCCESS, shift)
  else if 32 ≤ ty ∧ ty ≤ 63 then
    let (s5, r) := decode_lpc_subframe s4 block_size block_samples_offset (ty - 31)
      (effDepth sample_depth shift)
    if r ≠ FLAC_DECODER_SUCCESS then (s5, r, shift)
    else if shift > 0 then
      ({ s5 with block_samples := shiftRegion s5.block_samples block_samples_offset block_size shift },
       FLAC_DECODER_SUCCESS, shift)
    else (s5, FLAC_DECODER_SUCCESS, shift)
  else (s4, FLAC_DECODER_ERROR_RESERVED_SUBFRAME_TYPE, shift)

def decode_subframe_core (s : St) (block_size sample_depth block_samples_offset : Nat) :
    St × FLACDecoderResult × Nat :=
  let (s1, _pad) := read_uint s 1
  let (s2, type) := read_uint s1 6
  let (s3, shift0) := read_uint s2 1
  let wl : St × Option Nat :=
    if shift0 = 1 then wastedLoop (8 * s3.bytes_left + s3.bit_buffer_length + 2) s3 1
    else (s3, some 0)
  match wl with
  | (s4, none) => (s4, FLAC_DECODER_ERROR_OUT_OF_DATA, 0)
  | (s4, some shift) =>
    subframeTypeDispatch s4 block_size sample_depth block_samples_offset type shift

/-- `FLACDecoder::decode_subframe`. -/
def decode_subframe (s : St) (block_size sample_depth block_samples_offset : Nat) :
    St × FLACDecoderResult :=
  let (s', r, _) := decode_subframe_core s block_size sample_depth block_samples_offset
  (s', r)

-- ============================================================================
-- decode_subframes and channel decorrelation
-- ============================================================================

/-- The independent-channel loop of `decode_subframes` (`channel_assignment ≤ 7`). -/
def indepChannelLoop (block_size sample_depth : Nat) : Nat → Nat → St → St × FLACDecoderResult
  | 0, _, s => (s, FLAC_DECODER_SUCCESS)
  | k+1, off, s =>
    let (s1, r) := decode_subframe s block_size sample_depth off
    if r ≠ FLAC_DECODER_SUCCESS then (s1, r)
    else indepChannelLoop block_size sample_depth k (off + block_size) s1

/-- `FLACDecoder::decode_subframes`: independent channels, or the three stereo
decorrelation modes (8 left/side, 9 side/right, 10 mid/side); channel
assignments 11–15 are reserved. -/
def decode_subframes (s : St) (block_size sample_depth channel_assignment : Nat) :
    St × FLACDecoderResult :=
  if channel_assignment ≤ 7 then
    indepChannelLoop block_size sample_depth (channel_assignment + 1) 0 s
  else if channel_assignment ≤ 10 then
    let (s1, r1) := decode_subframe s block_size
      (sample_depth + (if channel_assignment = 9 then 1 else 0)) 0
    if r1 ≠ FLAC_DECODER_SUCCESS then (s1, r1)
    else
      let (s2, r2) := decode_subframe s1 block_size
        (sample_depth + (if channel_assignment = 9 then 0 else 1)) block_size
      if r2 ≠ FLAC_DECODER_SUCCESS then (s2, r2)
      else
        let p0 := s2.block_samples.take block_size
        let p1 := (s2.block_samples.drop block_size).take block_size
        if channel_assignment = 8 then
          let p1' := p0.zipWith (fun l sd => wrap32 (l - sd)) p1
          ({ s2 with block_samples := setSlice s2.block_samples block_size p1' },
           FLAC_DECODER_SUCCESS)
        else if channel_assignment = 9 then
          let p0' := p0.zipWith (fun sd r => wrap32 (sd + r)) p1
          ({ s2 with block_samples := setSlice s2.block_samples 0 p0' },
           FLAC_DECODER_SUCCESS)
        else
          let right := p0.zipWith (fun m sd => wrap32 (m - asr sd 1)) p1
          let left := (p0.zipWith (fun m sd => wrap32 (wrap32 (m - asr sd 1) + sd)) p1)
          ({ s2 with block_samples := setSlice (setSlice s2.block_samples 0 left) block_size right },
           FLAC_DECODER_SUCCESS)
  else (s, FLAC_DECODER_ERROR_RESERVED_CHANNEL_ASSIGNMENT)

-- ============================================================================
-- CRC (declared in flac_crc.h; the implementation file is not in the sources)
-- ============================================================================

/-- Modelled from the spec: one step of the CRC-8 with polynomial
`x^8 + x^2 + x + 1` (0x07), MSB first.  The implementation of
`calculate_crc8` (flac_crc.cpp) is not among the provided sources. -/
def crc8Step (crc : Nat) : Nat :=
  if crc / 128 % 2 = 1 then uxor (crc * 2 % 256) 7 else crc * 2 % 256

/-- Iterate `crc8Step`. -/
def crc8Steps : Nat → Nat → Nat
  | 0, c => c
  | k+1, c => crc8Steps k (crc8Step c)

/-- Modelled from the spec: CRC-8 over a byte sequence, polynomial 0x07,
initial value 0. -/
def calculate_crc8 (data : List Nat) : Nat :=
  data.foldl (fun c b => crc8Steps 8 (uxor c (b % 256))) 0

/-- Modelled from the spec: one step of the CRC-16 with polynomial
`x^16 + x^15 + x^2 + 1` (0x8005), MSB first. -/
def crc16Step (crc : Nat) : Nat :=
  if crc / 32768 % 2 = 1 then uxor (crc * 2 % 65536) 32773 else crc * 2 % 65536

/-- Iterate `crc16Step`. -/
def crc16Steps : Nat → Nat → Nat
  | 0, c => c
  | k+1, c => crc16Steps k (crc16Step c)

/-- Modelled from the spec: CRC-16 over a byte sequence, polynomial 0x8005,
initial value 0. -/
def calculate_crc16 (data : List Nat) : Nat :=
  data.foldl (fun c b => crc16Steps 8 (uxor c (b % 256 * 256))) 0

-- ============================================================================
-- Frame sync search and frame header parsing
-- ============================================================================

/-- The scan loop of `find_frame_sync`, with fuel.  Returns the two sync bytes
on success, `none` for `SYNC_NOT_FOUND`. -/
def findSyncLoop : Nat → St → Bool → St × Option (Nat × Nat)
  | 0, s, _ => (s, none)
  | fuel+1, s, second_ff => 
    let outer : St × Nat :=
      if second_ff then (s, 255)
      else
        let (t, b) := read_aligned_byte s
        ({ t with frame_start_index := t.frame_start_index + 1 }, b)
    let s1 := outer.1
    let byte := outer.2
    if byte = 255 then
      let (t2, b2) := read_aligned_byte s1
      let s2 := { t2 with frame_start_index := t2.frame_start_index + 1 }
      if b2 = 255 then findSyncLoop fuel s2 true
      else if b2 / 2 = 124 then
        ({ s2 with frame_start_index := s2.frame_start_index - 2 }, some (255, b2))
      else findSyncLoop fuel s2 false
    else if s1.out_of_data then (s1, none)
    else findSyncLoop fuel s1 false

/-- `FLACDecoder::find_frame_sync`: byte-aligned scan for `0xFF` followed by a
byte whose upper 7 bits are `0b1111110`. -/
def find_frame_sync (s : St) : St × Option (Nat × Nat) :=
  let s := align_to_byte { s with frame_start_index := 0 }
  findSyncLoop (s.bytes_left + s.bit_buffer_length / 8 + 4) s false

/-- The UTF-8-like coded-number loop of `decode_frame_header`: keep reading
bytes while `next_int ≥ 0b11000000`, with `next_int = (next_int << 1) & 0xFF`
each round (at most 7 rounds from any 8-bit start value). -/
def codedNumberLoop : Nat → St → List Nat → Nat → St × List Nat
  | 0, s, rh, _ => (s, rh)
  | fuel+1, s, rh, next_int =>
    if next_int ≥ 192 then
      let (s1, b) := read_aligned_byte s
      codedNumberLoop fuel s1 (rh ++ [b]) (next_int * 2 % 256)
    else (s, rh)

/-- The fixed table of standard sample rates for codes 1–11. -/
def sampleRateTable (code : Nat) : Nat :=
  match code with
  | 1 => 88200 | 2 => 176400 | 3 => 192000 | 4 => 8000 | 5 => 16000 | 6 => 22050
  | 7 => 24000 | 8 => 32000 | 9 => 44100 | 10 => 48000 | 11 => 96000
  | _ => 0

/-- The tail of `decode_frame_header` from the out-of-data check (9.1.8) on:
CRC-8 byte and the validations against STREAMINFO. -/
def dfhValidate (s7 : St) (rh : List Nat) (bits_per_sample_code frame_sample_rate : Nat) :
    St × FLACDecoderResult :=
  if s7.out_of_data then (s7, FLAC_DECODER_ERROR_OUT_OF_DATA)
  else
    let (s8, crc_read) := read_aligned_byte s7
    if s8.enable_crc_check ∧ calculate_crc8 rh ≠ crc_read then
      (s8, FLAC_DECODER_ERROR_CRC_MISMATCH)
    else
      let frame_channels :=
        if s8.curr_frame_channel_assign ≤ 7 then s8.curr_frame_channel_assign + 1
        else if s8.curr_frame_channel_assign ≤ 10 then 2
        else s8.num_channels
      if frame_channels ≠ s8.num_channels then (s8, FLAC_DECODER_ERROR_BAD_HEADER)
      else if bits_per_sample_code ≠ 0 ∧
          s8.curr_frame_sample_depth ≠ s8.sample_depth then
        (s8, FLAC_DECODER_ERROR_BAD_HEADER)
      else if frame_sample_rate ≠ s8.sample_rate then
        (s8, FLAC_DECODER_ERROR_BAD_HEADER)
      else (s8, FLAC_DECODER_SUCCESS)

/-- The uncommon-sample-rate step (9.1.7) of `decode_frame_header` followed by
`dfhValidate`; sample-rate code 15 is reserved (`BAD_HEADER`). -/
def dfhSampleRate (s6 : St) (rh : List Nat) (sample_rate_code bits_per_sample_code : Nat) :
    St × FLACDecoderResult :=
  let rate : St × List Nat × Option Nat :=
    if sample_rate_code = 12 then
      let (t, rb) := read_aligned_byte s6
      (t, rh ++ [rb], some (rb * 1000))
    else if sample_rate_code = 13 then
      let (t1, rb1) := read_aligned_byte s6
      let (t2, rb2) := read_aligned_byte t1
      (t2, rh ++ [rb1, rb2], some (uor (rb1 * 256) rb2))
    else if sample_rate_code = 14 then
      let (t1, rb1) := read_aligned_byte s6
      let (t2, rb2) := read_aligned_byte t1
      (t2, rh ++ [rb1, rb2], some (uor (rb1 * 256) rb2 * 10))
    else if sample_rate_code = 0 then (s6, rh, some s6.sample_rate)
    else if 1 ≤ sample_rate_code ∧ sample_rate_code ≤ 11 then
      (s6, rh, some (sampleRateTable sample_rate_code))
    else (s6, rh, none)
  match rate with
  | (s7, _, none) => (s7, FLAC_DECODER_ERROR_BAD_HEADER)
  | (s7, rh, some frame_sample_rate) => dfhValidate s7 rh bits_per_sample_code frame_sample_rate

/-- The uncommon-block-size step (9.1.6) of `decode_frame_header` followed by
`dfhSampleRate`. -/
def dfhBlockSize (s5 : St) (rh : List Nat)
    (block_size_code sample_rate_code bits_per_sample_code : Nat) : St × FLACDecoderResult :=
  let ub : St × List Nat :=
    if block_size_code = 6 then
      let (t, sb) := read_aligned_byte s5
      ({ t with curr_frame_block_size := sb + 1 }, rh ++ [sb])
    else if block_size_code = 7 then
      let (t1, sb1) := read_aligned_byte s5
      let t1 := { t1 with curr_frame_block_size := sb1 * 256 }
      let (t2, sb2) := read_aligned_byte t1
      ({ t2 with curr_frame_block_size := uor t2.curr_frame_block_size sb2 + 1 },
       rh ++ [sb1, sb2])
    else (s5, rh)
  dfhSampleRate ub.1 ub.2 sample_rate_code bits_per_sample_code

/-- The channel-assignment (9.1.4) and sample-depth (9.1.5) fields of
`decode_frame_header`, then the coded number (9.1.9) and `dfhBlockSize`. -/
def dfhDepth (s3 : St) (rh : List Nat) (b3 block_size_code sample_rate_code : Nat) :
    St × FLACDecoderResult :=
  let s3 := { s3 with curr_frame_channel_assign := b3 / 16 }
  let bits_per_sample_code := uand b3 14 / 2
  if bits_per_sample_code = 3 then (s3, FLAC_DECODER_ERROR_BAD_SAMPLE_DEPTH)
  else
    let newDepth :=
      match bits_per_sample_code with
      | 0 => s3.sample_depth
      | 1 => 8 | 2 => 12 | 4 => 16 | 5 => 20 | 6 => 24 | 7 => 32
      | _ => s3.curr_frame_sample_depth
    let s3 := { s3 with curr_frame_sample_depth := newDepth }
    let p := read_aligned_byte s3
    let cn := codedNumberLoop 8 p.1 (rh ++ [p.2]) p.2
    dfhBlockSize cn.1 cn.2 block_size_code sample_rate_code bits_per_sample_code

/-- `FLACDecoder::decode_frame_header`: sync search, fixed header fields,
coded number, uncommon block size / sample rate, CRC-8, and the validations
against STREAMINFO. -/
def decode_frame_header (s : St) : St × FLACDecoderResult :=
  match find_frame_sync s with
  | (s1, none) => (s1, FLAC_DECODER_ERROR_SYNC_NOT_FOUND)
  | (s1, some (sync0, sync1)) =>
    let rh := [sync0, sync1]
    if uand sync1 2 ≠ 0 then (s1, FLAC_DECODER_ERROR_BAD_MAGIC_NUMBER)
    else
      let (s2, b2) := read_aligned_byte s1
      if b2 = 255 then (s2, FLAC_DECODER_ERROR_SYNC_NOT_FOUND)
      else
        let rh := rh ++ [b2]
        let block_size_code := b2 / 16
        if block_size_code = 0 ∨ block_size_code > 15 then
          (s2, FLAC_DECODER_ERROR_BAD_BLOCK_SIZE_CODE)
        else
          let s2 :=
            if block_size_code = 1 then { s2 with curr_frame_block_size := 192 }
            else if 2 ≤ block_size_code ∧ block_size_code ≤ 5 then
              { s2 with curr_frame_block_size := 576 * 2 ^ (block_size_code - 2) }
            else if block_size_code ≤ 7 then s2
            else { s2 with curr_frame_block_size := 256 * 2 ^ (block_size_code - 8) }
          let sample_rate_code := uand b2 15
          let (s3, b3) := read_aligned_byte s2
          if b3 = 255 then (s3, FLAC_DECODER_ERROR_SYNC_NOT_FOUND)
          else dfhDepth s3 (rh ++ [b3]) b3 block_size_code sample_rate_code

-- ============================================================================
-- decode_frame
-- ============================================================================

/-- `FLACDecoder::decode_frame`.  Returns the final state, the result code and
the value stored through `*num_samples`.  The model's working-buffer
allocation always succeeds (`FLAC_MALLOC` failure is not modelled), and the
`write_samples_*` output packing only writes the caller's output buffer, so it
is omitted.  Note: the C code discards the result of `decode_subframes`
(flac_decoder.cpp line 219); the model reproduces that faithfully.
`dfSetup` is the entry bookkeeping of `decode_frame` (install the caller
buffer, allocate `block_samples` on first use), `dfBody` runs from the header
parse on, and `dfTail` is the subframe/CRC-16 part after the block-size
guard. -/
def dfSetup (s : St) (buffer : List Nat) : St :=
  let s := { s with buffer := buffer, buffer_index := 0, bytes_left := buffer.length,
                    out_of_data := false }
  if s.block_samples.isEmpty then
    { s with block_samples := List.replicate (s.max_block_size * s.num_channels) 0 }
  else s

def dfTail (s1 : St) (buffer : List Nat) : St × FLACDecoderResult × Nat :=
  let sf := decode_subframes s1 s1.curr_frame_block_size s1.curr_frame_sample_depth
    s1.curr_frame_channel_assign
  let s2 := sf.1
  let num := s2.curr_frame_block_size * s2.num_channels
  let s3 := align_to_byte s2
  if s3.bit_buffer_length / 8 + s3.bytes_left < 2 then
    (reset_bit_buffer s3, FLAC_DECODER_ERROR_OUT_OF_DATA, num)
  else
    let frame_end_index := s3.buffer_index - s3.bit_buffer_length / 8
    let (s4, crc_read) := read_uint s3 16
    if s4.enable_crc_check ∧ frame_end_index > s4.frame_start_index ∧
        calculate_crc16 ((buffer.drop s4.frame_start_index).take
          (frame_end_index - s4.frame_start_index)) ≠ crc_read then
      (s4, FLAC_DECODER_ERROR_CRC_MISMATCH, num)
    else (reset_bit_buffer s4, FLAC_DECODER_SUCCESS, num)

def dfBody (s : St) (buffer : List Nat) : St × FLACDecoderResult × Nat :=
  match decode_frame_header s with
  | (s1, r) =>
    if r ≠ FLAC_DECODER_SUCCESS then (reset_bit_buffer s1, r, 0)
    else if s1.curr_frame_block_size > s1.max_block_size then
      (s1, FLAC_DECODER_ERROR_BLOCK_SIZE_OUT_OF_RANGE, 0)
    else dfTail s1 buffer

def decode_frame (s : St) (buffer : List Nat) : St × FLACDecoderResult × Nat :=
  let s := dfSetup s buffer
  if s.bytes_left = 0 then (s, FLAC_DECODER_NO_MORE_FRAMES, 0)
  else dfBody s buffer

-- ============================================================================
-- Header / metadata state machine (FLACDecoder::read_header)
-- ============================================================================

/-- The `fLaC` magic number. -/
def MAGIC_NUMBER : Nat := 1716281667

/-- `FLACDecoder::get_max_metadata_size`: the per-type limit switch; every
type other than PADDING(1), APPLICATION(2), SEEKTABLE(3), VORBIS_COMMENT(4),
CUESHEET(5), PICTURE(6) — including STREAMINFO(0) — falls to the shared
unknown-type limit.  `read_header` consults the identical switch inline. -/
def get_max_metadata_size (s : St) (ty : Nat) : Nat :=
  match ty with
  | 1 => s.max_padding_size
  | 2 => s.max_application_size
  | 3 => s.max_seektable_size
  | 4 => s.max_vorbis_comment_size
  | 5 => s.max_cuesheet_size
  | 6 => s.max_album_art_size
  | _ => s.max_unknown_size

/-- `FLACDecoder::set_max_metadata_size`. -/
def set_max_metadata_size (s : St) (ty : Nat) (max_size : Nat) : St :=
  match ty with
  | 1 => { s with max_padding_size := max_size }
  | 2 => { s with max_application_size := max_size }
  | 3 => { s with max_seektable_size := max_size }
  | 4 => { s with max_vorbis_comment_size := max_size }
  | 5 => { s with max_cuesheet_size := max_size }
  | 6 => { s with max_album_art_size := max_size }
  | _ => { s with max_unknown_size := max_size }

/-- Read `count` bytes as a list (the STREAMINFO MD5 loop). -/
def readByteList : Nat → St → St × List Nat
  | 0, s => (s, [])
  | k+1, s =>
    let (s1, b) := read_uint s 8
    let (s2, bs) := readByteList k s1
    (s2, b :: bs)

/-- The STREAMINFO branch of the `read_header` loop: parse the 144-bit body
inline and promote its fields to stream properties. -/
def parseStreamInfo (s : St) : St :=
  let (t1, minb) := read_uint s 16
  let (t2, maxb) := read_uint t1 16
  let (t3, _minf) := read_uint t2 24
  let (t4, _maxf) := read_uint t3 24
  let (t5, sr) := read_uint t4 20
  let (t6, ch) := read_uint t5 3
  let (t7, sd) := read_uint t6 5
  let (t8, hi) := read_uint t7 4
  let (t9, lo) := read_uint t8 32
  let (t10, md5) := readByteList 16 t9
  { t10 with min_block_size := minb, max_block_size := maxb, sample_rate := sr,
             num_channels := ch + 1, sample_depth := sd + 1,
             num_samples := uor (hi * 4294967296) lo, md5_signature := md5,
             resume_header_length := 0, resume_header_bytes_read := 0 }

/-- Byte-discarding loop of the skip branch. -/
def skipLoop : Nat → St → St
  | 0, s => s
  | k+1, s =>
    let (s1, _) := read_uint s 8
    skipLoop k { s1 with resume_header_bytes_read := s1.resume_header_bytes_read + 1 }

/-- The skip branch: discard `min(length - bytes_read, bytes_left)` body bytes
and close the block once fully consumed. -/
def skipBlockBytes (s : St) : St :=
  let bytes_to_skip := min (s.resume_header_length - s.resume_header_bytes_read) s.bytes_left
  let s1 := skipLoop bytes_to_skip s
  if s1.resume_header_bytes_read = s1.resume_header_length then
    { s1 with resume_header_length := 0, resume_header_bytes_read := 0, resume_header_data := [] }
  else s1

/-- Byte-accumulating loop of the retain branch. -/
def accumLoop : Nat → St → St
  | 0, s => s
  | k+1, s =>
    let (s1, b) := read_uint s 8
    accumLoop k { s1 with resume_header_data := s1.resume_header_data ++ [b],
                          resume_header_bytes_read := s1.resume_header_bytes_read + 1 }

/-- The retain branch: accumulate body bytes and commit a metadata block once
fully read. -/
def accumBlockBytes (s : St) : St :=
  let bytes_to_read := min (s.resume_header_length - s.resume_header_bytes_read) s.bytes_left
  let s1 := accumLoop bytes_to_read s
  if s1.resume_header_bytes_read = s1.resume_header_length then
    { s1 with
      metadata_blocks := s1.metadata_blocks ++
        [⟨s1.resume_header_type, s1.resume_header_length, s1.resume_header_data⟩],
      resume_header_length := 0, resume_header_bytes_read := 0, resume_header_data := [] }
  else s1

/-- The metadata loop of `read_header` (`while (!last || length > 0)`), with
fuel.  Returns `some HEADER_OUT_OF_DATA` when input ran out (also on fuel
exhaustion, which the call-site fuel makes unreachable) and `none` when the
loop completed normally. -/
def headerLoop : Nat → St → St × Option FLACDecoderResult
  | 0, s => (s, some FLAC_DECODER_HEADER_OUT_OF_DATA)
  | fuel+1, s =>
    if ¬s.resume_header_last ∨ s.resume_header_length > 0 then
      if s.bytes_left = 0 then
        (reset_bit_buffer { s with resume_header_read := true },
         some FLAC_DECODER_HEADER_OUT_OF_DATA)
      else
        let s :=
          if s.resume_header_length = 0 then
            let (t1, lastBit) := read_uint s 1
            let (t2, ty) := read_uint t1 7
            let (t3, len) := read_uint t2 24
            { t3 with resume_header_last := lastBit ≠ 0, resume_header_type := ty,
                      resume_header_length := len, resume_header_bytes_read := 0,
                      resume_header_data := [] }
          else s
        let max_size := get_max_metadata_size s s.resume_header_type
        let should_skip := s.resume_header_type ≠ 0 ∧ s.resume_header_length > max_size
        let s' :=
          if s.resume_header_type = 0 then parseStreamInfo s
          else if should_skip then skipBlockBytes s
          else accumBlockBytes s
        headerLoop fuel s'
    else (s, none)

/-- The metadata loop of `read_header` followed by the stream-property
validation at flac_decoder.cpp lines 163–175. -/
def readHeaderTail (s1 : St) (fuel : Nat) : St × FLACDecoderResult :=
  match headerLoop fuel s1 with
  | (s2, some r) => (s2, r)
  | (s2, none) =>
    if s2.sample_rate = 0 ∨ s2.num_channels = 0 ∨ s2.sample_depth = 0 ∨
        s2.max_block_size = 0 then
      (s2, FLAC_DECODER_ERROR_BAD_HEADER)
    else if s2.min_block_size < 16 ∨ s2.min_block_size > s2.max_block_size ∨
        s2.max_block_size > 65535 then
      (s2, FLAC_DECODER_ERROR_BAD_HEADER)
    else (reset_bit_buffer s2, FLAC_DECODER_SUCCESS)

/-- `FLACDecoder::read_header`: install the caller's buffer, check the magic
number on a fresh (non-resumed) call, run the metadata loop, then validate the
stream properties. -/
def read_header (s : St) (buf : List Nat) : St × FLACDecoderResult :=
  let s := { s with buffer := buf, buffer_index := 0, bytes_left := buf.length,
                    bit_buffer := 0, bit_buffer_length := 0,
                    out_of_data := decide (buf.length = 0) }
  if ¬s.resume_header_read then
    let s := { s with metadata_blocks := [], resume_header_data := [] }
    let (s1, magic) := read_uint s 32
    if magic ≠ MAGIC_NUMBER then (s1, FLAC_DECODER_ERROR_BAD_MAGIC_NUMBER)
    else readHeaderTail s1 (buf.length + 2)
  else readHeaderTail s (buf.length + 2)

/-- `FLACDecoder::get_bytes_index`. -/
def get_bytes_index (s : St) : Nat := s.buffer_index

-- ============================================================================
-- Concrete states and inputs used by the theorems
-- ============================================================================

set_option maxRecDepth 100000

/-- A decoder whose STREAMINFO has been parsed: 2 channels, 16-bit, 44.1 kHz,
block size 192, CRC checking disabled. -/
def stStereo16 : St :=
  { max_block_size := 192, num_channels := 2, sample_depth := 16,
    sample_rate := 44100, min_block_size := 192, enable_crc_check := false }

/-- A frame whose header carries channel assignment 11 (reserved): sync
`FF F8`, block-size code 1 (192 samples), sample-rate code 0 (STREAMINFO),
channel bits `1011`, depth code 4 (16-bit), coded number 0, CRC-8 byte, and a
CRC-16 trailer. -/
def frameReserved11 : List Nat := [255, 248, 16, 184, 0, 0, 0, 0]

/-- The same frame truncated before the CRC-16 trailer. -/
def frameReserved11Short : List Nat := [255, 248, 16, 184, 0, 0]

/-- A decoder whose STREAMINFO says mono, 16-bit, 44.1 kHz, block size 16. -/
def stMono16 : St :=
  { max_block_size := 16, num_channels := 1, sample_depth := 16,
    sample_rate := 44100, min_block_size := 16, enable_crc_check := false }

/-- A frame whose header codes block size 192 (larger than the STREAMINFO
maximum 16): sync, block-size code 1, rate code 0, channel bits `0000`, depth
code 4, coded number 0, CRC-8, then two trailing bytes that end up buffered in
the bit buffer when the block-size check fires. -/
def frameTooLarge : List Nat := [255, 248, 16, 8, 0, 0, 170, 187]

/-- A complete minimal FLAC header: the 4-byte magic, one last-flagged
STREAMINFO block header (length 34), and a STREAMINFO body coding
`min = max = 4096`, 44100 Hz, 2 channels, 16 bits, unknown length, zero MD5. -/
def headerMinimal : List Nat :=
  [102, 76, 97, 67, 128, 0, 0, 34,
   16, 0, 16, 0, 0, 0, 0, 0, 0, 0,
   10, 196, 66, 240, 0, 0, 0, 0,
   0, 0, 0, 0, 0, 0, 0, 0, 0, 0, 0, 0, 0, 0, 0, 0]

-- ============================================================================
-- C1
-- ============================================================================

/-- C1: the claim that every error code produced while decoding subframes is
returned by `decode_frame` is FALSE on the code: `decode_frame` discards the
result of `decode_subframes` (flac_decoder.cpp line 219).  On a frame whose
header carries channel assignment 11, `decode_subframes` produces
`RESERVED_CHANNEL_ASSIGNMENT`, yet `decode_frame` returns `SUCCESS` (with CRC
checking disabled; with it enabled the call would instead fail the CRC
comparison — either way the reserved-channel error is lost). -/
theorem C1_subframe_errors_swallowed :
    (decode_subframes stStereo16 192 16 11).2 =
      FLAC_DECODER_ERROR_RESERVED_CHANNEL_ASSIGNMENT ∧
    (decode_frame stStereo16 frameReserved11).1.curr_frame_channel_assign = 11 ∧
    (decode_frame stStereo16 frameReserved11).2.1 = FLAC_DECODER_SUCCESS := by
  refine ⟨by decide, by decide, by decide⟩

-- ============================================================================
-- C4
-- ============================================================================

/-- C4: the claim fails for a split inside the 4-byte magic number.  On the
full minimal header `read_header` succeeds, but on the 2-byte prefix
`[0x66, 0x4C]` the 32-bit magic read underruns, returns 0, and `read_header`
answers `BAD_MAGIC_NUMBER` — a terminal error instead of the resumable
`HEADER_OUT_OF_DATA` the split-input law requires; the continuation call on
the remainder then also fails.  (For splits at or after the magic number the
resume machinery does exist, e.g. the 4-byte prefix yields
`HEADER_OUT_OF_DATA`.) -/
theorem C4_split_inside_magic_fails :
    (read_header {} headerMinimal).2 = FLAC_DECODER_SUCCESS ∧
    (read_header {} (headerMinimal.take 2)).2 = FLAC_DECODER_ERROR_BAD_MAGIC_NUMBER ∧
    (read_header (read_header {} (headerMinimal.take 2)).1 (headerMinimal.drop 2)).2 =
      FLAC_DECODER_ERROR_BAD_MAGIC_NUMBER ∧
    (read_header {} (headerMinimal.take 4)).2 = FLAC_DECODER_HEADER_OUT_OF_DATA := by
  refine ⟨by decide, by decide, by decide, by decide⟩

-- ============================================================================
-- C5
-- ============================================================================

/-- C5: the claim that after every return `bit_buffer_length_` is zero is
FALSE on the code: the `BLOCK_SIZE_OUT_OF_RANGE` return path of `decode_frame`
(flac_decoder.cpp lines 215–217) returns without calling `reset_bit_buffer`.
On this input the bit buffer still holds 16 bits (2 whole bytes), so
`get_bytes_index` overcounts by 2 the bytes the next call should skip.  (The
`CRC_MISMATCH` path at lines 239–241 has the same omission.) -/
theorem C5_bit_buffer_left_dirty_on_block_size_error :
    (decode_frame stMono16 frameTooLarge).2.1 = FLAC_DECODER_ERROR_BLOCK_SIZE_OUT_OF_RANGE ∧
    (decode_frame stMono16 frameTooLarge).1.bit_buffer_length = 16 ∧
    get_bytes_index (decode_frame stMono16 frameTooLarge).1 = 8 := by
  refine ⟨by decide, by decide, by decide⟩

-- ============================================================================
-- C6 : counterexample
-- ============================================================================

/-- C6 counterexample: a `decode_frame` call that returns `ERROR_OUT_OF_DATA`
because the buffer ends before the CRC-16 trailer reports `get_bytes_index = 6`
(the whole 6-byte buffer), not 0 as the claim states. -/
theorem C6_bytes_index_not_zero_on_out_of_data :
    (decode_frame stStereo16 frameReserved11Short).2.1 = FLAC_DECODER_ERROR_OUT_OF_DATA ∧
    get_bytes_index (decode_frame stStereo16 frameReserved11Short).1 = 6 ∧
    (6 : Nat) ≠ 0 := by
  refine ⟨by decide, by decide, by decide⟩

-- ============================================================================
-- C2 : counterexample
-- ============================================================================

/-- C2 counterexample: for depth 16, coefficient vector `[32768]`, order 1 and
shift 1, `can_use_32bit_lpc` returns true and the buffer `[4, 0, 0]` has its
warm-up sample and residuals inside `[-2^15, 2^15)`, yet the two restoration
routines disagree: the second restored sample (65536) escapes the depth range,
and the following prediction (`65536 * 32768 = 2^31`) overflows `int32_t`, so
the 32-bit routine computes `-2^30` where the 64-bit routine computes `2^30`. -/
theorem C2_32bit_64bit_disagree_within_analysis :
    can_use_32bit_lpc 16 [32768] 1 1 = true ∧
    (∀ x ∈ [(4 : Int), 0, 0], -32768 ≤ x ∧ x < 32768) ∧
    restore_linear_prediction_32bit [4, 0, 0] 3 [32768] 1 ≠
      restore_linear_prediction_64bit [4, 0, 0] 3 [32768] 1 := by
  refine ⟨by decide, by decide, by decide⟩

-- ============================================================================
-- C3
-- ============================================================================

/-- The validated stream properties at the end of `read_header`. -/
def headerValid (s : St) : Prop :=
  s.sample_rate ≠ 0 ∧ s.num_channels ≠ 0 ∧ s.sample_depth ≠ 0 ∧ s.max_block_size ≠ 0 ∧
  16 ≤ s.min_block_size ∧ s.min_block_size ≤ s.max_block_size ∧ s.max_block_size ≤ 65535

/-- The metadata loop can only exit early with `HEADER_OUT_OF_DATA`. -/
theorem headerLoop_some {fuel : Nat} {s : St} {r : FLACDecoderResult}
    (h : (headerLoop fuel s).2 = some r) : r = FLAC_DECODER_HEADER_OUT_OF_DATA := by
  induction fuel generalizing s with
  | zero => simpa [headerLoop] using h.symm
  | succ n ih =>
    rw [headerLoop] at h
    split at h
    · split at h
      · simpa using h.symm
      · exact ih h
    · simp at h

/-- Postcondition of the loop-plus-validation tail of `read_header`. -/
theorem readHeaderTail_spec (s1 : St) (fuel : Nat) (sres : St) (rr : FLACDecoderResult)
    (hrt : readHeaderTail s1 fuel = (sres, rr)) :
    (rr = FLAC_DECODER_SUCCESS → headerValid sres) ∧
    (rr ≠ FLAC_DECODER_HEADER_OUT_OF_DATA → ¬headerValid sres →
      rr = FLAC_DECODER_ERROR_BAD_HEADER) := by
  unfold readHeaderTail at hrt
  split at hrt
  · rename_i s2 r hl
    have hr := headerLoop_some (r := r) (by rw [hl])
    subst hr
    obtain ⟨rfl, rfl⟩ : s2 = sres ∧ FLAC_DECODER_HEADER_OUT_OF_DATA = rr := by
      simpa using hrt
    exact ⟨by simp, fun hood _ => absurd rfl (Ne.symm hood)⟩
  · rename_i s2 hl
    split at hrt
    · obtain ⟨rfl, rfl⟩ : s2 = sres ∧ FLAC_DECODER_ERROR_BAD_HEADER = rr := by simpa using hrt
      exact ⟨by simp, fun _ _ => rfl⟩
    · split at hrt
      · obtain ⟨rfl, rfl⟩ : s2 = sres ∧ FLAC_DECODER_ERROR_BAD_HEADER = rr := by
          simpa using hrt
        exact ⟨by simp, fun _ _ => rfl⟩
      · obtain ⟨rfl, rfl⟩ : reset_bit_buffer s2 = sres ∧ FLAC_DECODER_SUCCESS = rr := by
          simpa using hrt
        rename_i h1 h2
        simp only [not_or] at h1 h2
        have hv : headerValid (reset_bit_buffer s2) := by
          refine ⟨?_, ?_, ?_, ?_, ?_, ?_, ?_⟩ <;> dsimp only [reset_bit_buffer] <;> omega
        exact ⟨fun _ => hv, fun _ hnv => absurd hv hnv⟩

/-- C3: whenever `read_header` returns `SUCCESS` the stream properties satisfy
`sample_rate ≠ 0`, `channels ≠ 0`, `sample_depth ≠ 0`, `max_block_size ≠ 0` and
`16 ≤ min_block_size ≤ max_block_size ≤ 65535`; and whenever the metadata
sequence completes (the result is neither `HEADER_OUT_OF_DATA` nor
`BAD_MAGIC_NUMBER`) but some of these conditions fails, the result is
`BAD_HEADER`. -/
theorem C3_read_header_validates (s : St) (buf : List Nat) :
    ((read_header s buf).2 = FLAC_DECODER_SUCCESS → headerValid (read_header s buf).1) ∧
    ((read_header s buf).2 ≠ FLAC_DECODER_HEADER_OUT_OF_DATA →
      (read_header s buf).2 ≠ FLAC_DECODER_ERROR_BAD_MAGIC_NUMBER →
      ¬headerValid (read_header s buf).1 →
      (read_header s buf).2 = FLAC_DECODER_ERROR_BAD_HEADER) := by
  rcases hrh : read_header s buf with ⟨sres, rr⟩
  unfold read_header at hrh
  simp only [] at hrh
  split at hrh
  · split at hrh
    · obtain ⟨rfl, rfl⟩ : _ ∧ FLAC_DECODER_ERROR_BAD_MAGIC_NUMBER = rr := by simpa using hrh
      exact ⟨by simp, fun _ hm => absurd rfl (Ne.symm hm)⟩
    · have := readHeaderTail_spec _ _ _ _ hrh
      exact ⟨this.1, fun hood _ => this.2 hood⟩
  · have := readHeaderTail_spec _ _ _ _ hrh
    exact ⟨this.1, fun hood _ => this.2 hood⟩

/-- C3 witness: on the minimal valid header the success postcondition holds. -/
theorem C3_read_header_validates_witness :
    headerValid (read_header {} headerMinimal).1 :=
  (C3_read_header_validates {} headerMinimal).1 (by decide)

-- ============================================================================
-- C10
-- ============================================================================

/-- A minimal header followed by one 5-byte PADDING block (type 1, last). -/
def headerWithPadding : List Nat :=
  [102, 76, 97, 67, 0, 0, 0, 34,
   16, 0, 16, 0, 0, 0, 0, 0, 0, 0,
   10, 196, 66, 240, 0, 0, 0, 0,
   0, 0, 0, 0, 0, 0, 0, 0, 0, 0, 0, 0, 0, 0, 0, 0,
   129, 0, 0, 5, 1, 2, 3, 4, 5]

/-- The streaming parse of `headerWithPadding`: a first `read_header` call on
the whole buffer, then — as the bundled `flac_to_wav` caller does — a second
call on the bytes past `get_bytes_index`. -/
def parseWithPadding (s : St) : St × FLACDecoderResult :=
  let r1 := read_header s headerWithPadding
  read_header r1.1 (headerWithPadding.drop (get_bytes_index r1.1))

/-- C10: `set_max_metadata_size` with type STREAMINFO (0) — like every type
other than PADDING..PICTURE (1–6) — updates only the shared unknown-type
limit and leaves the six per-type limits unchanged (the record-update
equalities); `get_max_metadata_size(STREAMINFO)` reads that shared limit; the
STREAMINFO branch of the `read_header` loop is taken without consulting any
configured limit; and concretely, a header containing a PADDING block parses
to the same result and stream properties whether the padding limit skips the
block (limit 0) or retains it (limit 100) — only the retained metadata
differs. -/
theorem C10_streaminfo_limit_aliases_unknown :
    (∀ (s : St) (v : Nat), set_max_metadata_size s 0 v = { s with max_unknown_size := v }) ∧
    (∀ (s : St) (v k : Nat),
      set_max_metadata_size s (k + 7) v = { s with max_unknown_size := v }) ∧
    (∀ s : St, get_max_metadata_size s 0 = s.max_unknown_size) ∧
    (∀ (fuel : Nat) (s : St), s.bytes_left ≠ 0 → s.resume_header_length ≠ 0 →
      s.resume_header_type = 0 →
      headerLoop (fuel + 1) s = headerLoop fuel (parseStreamInfo s)) ∧
    ((parseWithPadding {}).2 = FLAC_DECODER_SUCCESS ∧
     (parseWithPadding { max_padding_size := 100 }).2 = FLAC_DECODER_SUCCESS ∧
     (parseWithPadding {}).1.sample_rate = 44100 ∧
     (parseWithPadding { max_padding_size := 100 }).1.sample_rate = 44100 ∧
     (parseWithPadding {}).1.max_block_size = 4096 ∧
     (parseWithPadding { max_padding_size := 100 }).1.max_block_size = 4096 ∧
     (parseWithPadding {}).1.metadata_blocks = [] ∧
     (parseWithPadding { max_padding_size := 100 }).1.metadata_blocks =
       [⟨1, 5, [1, 2, 3, 4, 5]⟩]) := by
  refine ⟨fun s v => rfl, fun s v k => rfl, fun s => rfl, ?_, ?_⟩
  · intro fuel s hb hl ht
    rw [headerLoop]
    simp only [ht, hb, hl]
    simp [hl, ht, if_neg hb, Nat.pos_of_ne_zero hl]
  · exact ⟨by decide, by decide, by decide, by decide, by decide, by decide, by decide,
      by decide⟩


-- ============================================================================
-- C7 : the frame block size parsed by a successful header is positive
-- ============================================================================

theorem loadTailBytes_cfbs (k : Nat) (s : St) :
    (loadTailBytes s k).curr_frame_block_size = s.curr_frame_block_size := by
  induction k generalizing s with
  | zero => rfl
  | succ n ih => exact ih _

theorem refill_cfbs (s : St) :
    ((refill_bit_buffer s).1).curr_frame_block_size = s.curr_frame_block_size := by
  unfold refill_bit_buffer
  split_ifs <;> simp [loadTailBytes_cfbs]

theorem read_uint_cfbs (s : St) (n : Nat) :
    ((read_uint s n).1).curr_frame_block_size = s.curr_frame_block_size := by
  unfold read_uint
  simp only []
  split_ifs <;> simp [refill_cfbs s]

theorem read_aligned_byte_cfbs (s : St) :
    ((read_aligned_byte s).1).curr_frame_block_size = s.curr_frame_block_size :=
  read_uint_cfbs s 8

theorem codedNumberLoop_cfbs (fuel : Nat) (s : St) (rh : List Nat) (ni : Nat) :
    ((codedNumberLoop fuel s rh ni).1).curr_frame_block_size = s.curr_frame_block_size := by
  induction fuel generalizing s rh ni with
  | zero => rfl
  | succ n ih =>
    unfold codedNumberLoop
    split
    · rcases hb : read_aligned_byte s with ⟨t, b⟩
      have := read_aligned_byte_cfbs s
      rw [hb] at this
      simp only [hb]
      exact (ih _ _ _).trans this
    · rfl


theorem loadTailBytes_mbs (k : Nat) (s : St) :
    (loadTailBytes s k).max_block_size = s.max_block_size := by
  induction k generalizing s with
  | zero => rfl
  | succ n ih => exact ih _

theorem refill_mbs (s : St) :
    ((refill_bit_buffer s).1).max_block_size = s.max_block_size := by
  unfold refill_bit_buffer
  split_ifs <;> simp [loadTailBytes_mbs]

theorem read_uint_mbs (s : St) (n : Nat) :
    ((read_uint s n).1).max_block_size = s.max_block_size := by
  unfold read_uint
  simp only []
  split_ifs <;> simp [refill_mbs s]

theorem read_aligned_byte_mbs (s : St) :
    ((read_aligned_byte s).1).max_block_size = s.max_block_size :=
  read_uint_mbs s 8

theorem codedNumberLoop_mbs (fuel : Nat) (s : St) (rh : List Nat) (ni : Nat) :
    ((codedNumberLoop fuel s rh ni).1).max_block_size = s.max_block_size := by
  induction fuel generalizing s rh ni with
  | zero => rfl
  | succ n ih =>
    unfold codedNumberLoop
    split
    · rcases hb : read_aligned_byte s with ⟨t, b⟩
      have := read_aligned_byte_mbs s
      rw [hb] at this
      simp only [hb]
      exact (ih _ _ _).trans this
    · rfl

theorem align_to_byte_mbs (s : St) :
    (align_to_byte s).max_block_size = s.max_block_size := by
  unfold align_to_byte
  split_ifs <;> rfl

theorem findSyncLoop_mbs (fuel : Nat) (s : St) (ff : Bool) :
    ((findSyncLoop fuel s ff).1).max_block_size = s.max_block_size := by
  induction fuel generalizing s ff with
  | zero => rfl
  | succ n ih =>
    unfold findSyncLoop
    by_cases hff : ff
    · simp only [hff, if_true]
      rcases h2 : read_aligned_byte s with ⟨t2, b2⟩
      have e2 := read_aligned_byte_mbs s
      rw [h2] at e2
      simp only [h2]
      split_ifs <;> simp_all [ih]
    · simp only [hff, if_false, Bool.false_eq_true]
      rcases h1 : read_aligned_byte s with ⟨t, b1⟩
      have e1 := read_aligned_byte_mbs s
      rw [h1] at e1
      simp only [h1]
      by_cases hb : b1 = 255
      · simp only [hb, if_pos rfl]
        rcases h2 : read_aligned_byte { t with frame_start_index := t.frame_start_index + 1 }
          with ⟨t2, b2⟩
        have e2 := read_aligned_byte_mbs { t with frame_start_index := t.frame_start_index + 1 }
        rw [h2] at e2
        simp only [h2]
        split_ifs <;> simp_all [ih]
      · simp only [if_neg hb]
        split_ifs <;> simp_all [ih]

theorem find_frame_sync_mbs (s : St) :
    ((find_frame_sync s).1).max_block_size = s.max_block_size := by
  unfold find_frame_sync
  simp only []
  rw [findSyncLoop_mbs, align_to_byte_mbs]

theorem dfhValidate_spec (s7 : St) (rh : List Nat) (b fr : Nat) :
    ((dfhValidate s7 rh b fr).1).curr_frame_block_size = s7.curr_frame_block_size ∧
    ((dfhValidate s7 rh b fr).1).max_block_size = s7.max_block_size ∧
    (dfhValidate s7 rh b fr).2 ≠ FLAC_DECODER_NO_MORE_FRAMES ∧
    (dfhValidate s7 rh b fr).2 ≠ FLAC_DECODER_HEADER_OUT_OF_DATA := by
  unfold dfhValidate
  simp only []
  rcases hc : read_aligned_byte s7 with ⟨s8, crc⟩
  have h8 := read_aligned_byte_cfbs s7
  have h8m := read_aligned_byte_mbs s7
  rw [hc] at h8 h8m
  split_ifs <;> simp_all

theorem dfhSampleRate_spec (s6 : St) (rh : List Nat) (a b : Nat) :
    ((dfhSampleRate s6 rh a b).1).curr_frame_block_size = s6.curr_frame_block_size ∧
    ((dfhSampleRate s6 rh a b).1).max_block_size = s6.max_block_size ∧
    (dfhSampleRate s6 rh a b).2 ≠ FLAC_DECODER_NO_MORE_FRAMES ∧
    (dfhSampleRate s6 rh a b).2 ≠ FLAC_DECODER_HEADER_OUT_OF_DATA := by
  unfold dfhSampleRate
  simp only []
  rcases h1 : read_aligned_byte s6 with ⟨t1, rb1⟩
  have e1 := read_aligned_byte_cfbs s6
  have e1m := read_aligned_byte_mbs s6
  rw [h1] at e1 e1m
  rcases h2 : read_aligned_byte t1 with ⟨t2, rb2⟩
  have e2 := read_aligned_byte_cfbs t1
  have e2m := read_aligned_byte_mbs t1
  rw [h2] at e2 e2m
  simp only [] at e1 e2 e1m e2m
  split_ifs <;> simp [h1, h2, dfhValidate_spec, e1, e2, e1m, e2m]

theorem dfhBlockSize_spec (s5 : St) (rh : List Nat) (c a b : Nat)
    (h : c = 6 ∨ c = 7 ∨ 1 ≤ s5.curr_frame_block_size) :
    (1 ≤ ((dfhBlockSize s5 rh c a b).1).curr_frame_block_size ∧
     ((dfhBlockSize s5 rh c a b).1).max_block_size = s5.max_block_size) ∧
    (dfhBlockSize s5 rh c a b).2 ≠ FLAC_DECODER_NO_MORE_FRAMES ∧
    (dfhBlockSize s5 rh c a b).2 ≠ FLAC_DECODER_HEADER_OUT_OF_DATA := by
  unfold dfhBlockSize
  simp only []
  by_cases h6 : c = 6
  · rcases hb : read_aligned_byte s5 with ⟨t, sb⟩
    have em := read_aligned_byte_mbs s5
    rw [hb] at em
    simp only [] at em
    simp [h6, hb, dfhSampleRate_spec, em]
  · by_cases h7 : c = 7
    · rcases hb1 : read_aligned_byte s5 with ⟨t1, sb1⟩
      have e1m := read_aligned_byte_mbs s5
      rw [hb1] at e1m
      rcases hb2 : read_aligned_byte { t1 with curr_frame_block_size := sb1 * 256 } with ⟨t2, sb2⟩
      have e2 := read_aligned_byte_cfbs { t1 with curr_frame_block_size := sb1 * 256 }
      have e2m := read_aligned_byte_mbs { t1 with curr_frame_block_size := sb1 * 256 }
      rw [hb2] at e2 e2m
      simp only [] at e1m e2 e2m
      simp [h7, h6, hb1, hb2, dfhSampleRate_spec, e1m, e2, e2m]
    · have hge : 1 ≤ s5.curr_frame_block_size := by rcases h with h | h | h <;> omega
      have hsr := dfhSampleRate_spec s5 rh a b
      simp only [if_neg h6, if_neg h7]
      exact ⟨⟨hsr.1.symm ▸ hge, hsr.2.1⟩, hsr.2.2.1, hsr.2.2.2⟩

theorem dfhDepth_spec (u : St) (rh : List Nat) (b3 bsc src : Nat)
    (h : bsc = 6 ∨ bsc = 7 ∨ 1 ≤ u.curr_frame_block_size) :
    ((dfhDepth u rh b3 bsc src).2 = FLAC_DECODER_SUCCESS →
      1 ≤ ((dfhDepth u rh b3 bsc src).1).curr_frame_block_size) ∧
    ((dfhDepth u rh b3 bsc src).1).max_block_size = u.max_block_size ∧
    (dfhDepth u rh b3 bsc src).2 ≠ FLAC_DECODER_NO_MORE_FRAMES ∧
    (dfhDepth u rh b3 bsc src).2 ≠ FLAC_DECODER_HEADER_OUT_OF_DATA := by
  unfold dfhDepth
  simp only []
  by_cases hb : uand b3 14 / 2 = 3
  · rw [if_pos hb]
    exact ⟨by simp, rfl, by simp, by simp⟩
  · rw [if_neg hb]
    refine ⟨fun _ => (dfhBlockSize_spec _ _ _ _ _ ?_).1.1,
            Eq.trans (dfhBlockSize_spec _ _ _ _ _ ?_).1.2
              (by rw [codedNumberLoop_mbs, read_aligned_byte_mbs]),
            (dfhBlockSize_spec _ _ _ _ _ ?_).2.1,
            (dfhBlockSize_spec _ _ _ _ _ ?_).2.2⟩ <;>
    · rcases h with h | h | h
      · exact Or.inl h
      · exact Or.inr (Or.inl h)
      · refine Or.inr (Or.inr ?_)
        rw [codedNumberLoop_cfbs, read_aligned_byte_cfbs]
        exact h

theorem decode_frame_header_spec (s s' : St) (r : FLACDecoderResult)
    (hd : decode_frame_header s = (s', r)) :
    s'.max_block_size = s.max_block_size ∧
    r ≠ FLAC_DECODER_NO_MORE_FRAMES ∧
    r ≠ FLAC_DECODER_HEADER_OUT_OF_DATA ∧
    (r = FLAC_DECODER_SUCCESS → 1 ≤ s'.curr_frame_block_size) := by
  unfold decode_frame_header at hd
  rcases hfs : find_frame_sync s with ⟨s1, so⟩
  have hfsm := find_frame_sync_mbs s
  rw [hfs] at hd hfsm
  simp only [] at hfsm
  rcases so with _ | ⟨sync0, sync1⟩
  · simp only [] at hd
    injection hd with h1 h2
    subst h1
    subst h2
    exact ⟨hfsm, by simp, by simp, by simp⟩
  · simp only [] at hd
    by_cases hmag : uand sync1 2 ≠ 0
    · rw [if_pos hmag] at hd
      injection hd with h1 h2
      subst h1
      subst h2
      exact ⟨hfsm, by simp, by simp, by simp⟩
    · rw [if_neg hmag] at hd
      rcases hb2 : read_aligned_byte s1 with ⟨s2, b2⟩
      have hb2m := read_aligned_byte_mbs s1
      rw [hb2] at hd hb2m
      simp only [] at hd hb2m
      by_cases h255 : b2 = 255
      · rw [if_pos h255] at hd
        injection hd with h1 h2
        subst h1
        subst h2
        exact ⟨hb2m.trans hfsm, by simp, by simp, by simp⟩
      · rw [if_neg h255] at hd
        by_cases hbsc : b2 / 16 = 0 ∨ b2 / 16 > 15
        · rw [if_pos hbsc] at hd
          injection hd with h1 h2
          subst h1
          subst h2
          exact ⟨hb2m.trans hfsm, by simp, by simp, by simp⟩
        · rw [if_neg hbsc] at hd
          generalize hbs2 : (if b2 / 16 = 1 then { s2 with curr_frame_block_size := 192 }
              else if 2 ≤ b2 / 16 ∧ b2 / 16 ≤ 5 then
                { s2 with curr_frame_block_size := 576 * 2 ^ (b2 / 16 - 2) }
              else if b2 / 16 ≤ 7 then s2
              else { s2 with curr_frame_block_size := 256 * 2 ^ (b2 / 16 - 8) }) = t2 at hd
          have ht2c : b2 / 16 = 6 ∨ b2 / 16 = 7 ∨ 1 ≤ t2.curr_frame_block_size := by
            rw [← hbs2]
            have h0 : b2 / 16 ≠ 0 := fun h => hbsc (Or.inl h)
            have h15 : ¬b2 / 16 > 15 := fun h => hbsc (Or.inr h)
            have hp2 : (1 : Nat) ≤ 2 ^ (b2 / 16 - 2) := Nat.one_le_two_pow
            have hp8 : (1 : Nat) ≤ 2 ^ (b2 / 16 - 8) := Nat.one_le_two_pow
            split_ifs with e1 e2 e3
            · right; right; simp
            · right; right
              simp only []
              omega
            · omega
            · right; right
              simp only []
              omega
          have ht2m : t2.max_block_size = s2.max_block_size := by
            rw [← hbs2]
            split_ifs <;> rfl
          rcases hb3 : read_aligned_byte t2 with ⟨s3, b3⟩
          have hb3c := read_aligned_byte_cfbs t2
          have hb3m := read_aligned_byte_mbs t2
          rw [hb3] at hd hb3c hb3m
          simp only [] at hd hb3c hb3m
          by_cases h3255 : b3 = 255
          · rw [if_pos h3255] at hd
            injection hd with h1 h2
            subst h1
            subst h2
            refine ⟨?_, by simp, by simp, by simp⟩
            rw [hb3m, ht2m, hb2m, hfsm]
          · rw [if_neg h3255] at hd
            have h1 := congrArg Prod.fst hd
            have h2 := congrArg Prod.snd hd
            simp only [] at h1 h2
            have hdisj : b2 / 16 = 6 ∨ b2 / 16 = 7 ∨ 1 ≤ s3.curr_frame_block_size := by
              rcases ht2c with h | h | h
              · exact Or.inl h
              · exact Or.inr (Or.inl h)
              · refine Or.inr (Or.inr ?_)
                rw [hb3c]
                exact h
            refine ⟨?_, ?_, ?_, ?_⟩
            · rw [← h1, (dfhDepth_spec _ _ _ _ _ hdisj).2.1, hb3m, ht2m, hb2m, hfsm]
            · rw [← h2]
              exact (dfhDepth_spec _ _ _ _ _ hdisj).2.2.1
            · rw [← h2]
              exact (dfhDepth_spec _ _ _ _ _ hdisj).2.2.2
            · rw [← h1, ← h2]
              exact (dfhDepth_spec _ _ _ _ _ hdisj).1

theorem dfSetup_bytes_left (s : St) (buffer : List Nat) :
    (dfSetup s buffer).bytes_left = buffer.length := by
  unfold dfSetup
  simp only []
  split_ifs <;> rfl

theorem dfSetup_mbs (s : St) (buffer : List Nat) :
    (dfSetup s buffer).max_block_size = s.max_block_size := by
  unfold dfSetup
  simp only []
  split_ifs <;> rfl

/-- **C7**: on a decoder whose STREAMINFO has not been parsed
(`max_block_size` still has its initial value 0), `decode_frame` with a
non-empty buffer never reports success or a clean end of stream and never
reports decoded samples: frame decoding is only reachable after a successful
`read_header`.  (A successfully parsed frame header always carries a positive
block size, so the `curr_frame_block_size_ > max_block_size_` guard fires.) -/
theorem C7_decode_frame_requires_streaminfo (s : St) (buffer : List Nat)
    (hmax : s.max_block_size = 0) (hbuf : buffer ≠ []) :
    (decode_frame s buffer).2.1 ≠ FLAC_DECODER_SUCCESS ∧
    (decode_frame s buffer).2.1 ≠ FLAC_DECODER_NO_MORE_FRAMES ∧
    (decode_frame s buffer).2.2 = 0 := by
  rcases buffer with _ | ⟨b0, bs⟩
  · exact absurd rfl hbuf
  rcases hdf : decode_frame s (b0 :: bs) with ⟨sf, rr, nn⟩
  simp only []
  unfold decode_frame at hdf
  simp only [] at hdf
  rw [dfSetup_bytes_left] at hdf
  rw [if_neg (by simp)] at hdf
  unfold dfBody at hdf
  rcases hd : decode_frame_header (dfSetup s (b0 :: bs)) with ⟨s1, r1⟩
  obtain ⟨hm1, hn1, _, hpos⟩ := decode_frame_header_spec _ _ _ hd
  rw [hd] at hdf
  simp only [] at hdf
  have hz1 : s1.max_block_size = 0 := by rw [hm1, dfSetup_mbs, hmax]
  by_cases hr : r1 = FLAC_DECODER_SUCCESS
  · rw [if_neg (by simp [hr])] at hdf
    rw [if_pos (show s1.curr_frame_block_size > s1.max_block_size by
      rw [hz1]; exact hpos hr)] at hdf
    injection hdf with h1 h23
    injection h23 with h2 h3
    subst h2
    subst h3
    exact ⟨by simp, by simp, rfl⟩
  · rw [if_pos hr] at hdf
    injection hdf with h1 h23
    injection h23 with h2 h3
    subst h2
    subst h3
    exact ⟨hr, hn1, rfl⟩

/-- Witness for C7 at the freshly initialised decoder state and a one-byte
buffer. -/
theorem C7_decode_frame_requires_streaminfo_witness :
    (({} : St).max_block_size = 0 ∧ ([0] : List Nat) ≠ []) ∧
    ((decode_frame {} [0]).2.1 ≠ FLAC_DECODER_SUCCESS ∧
     (decode_frame {} [0]).2.1 ≠ FLAC_DECODER_NO_MORE_FRAMES ∧
     (decode_frame {} [0]).2.2 = 0) :=
  ⟨⟨rfl, by simp⟩, C7_decode_frame_requires_streaminfo {} [0] rfl (by simp)⟩

-- ============================================================================
-- C8 : residual decoding
-- ============================================================================

theorem riceLoop_length (param k : Nat) (s : St) :
    ((riceLoop param k s).2).length = k := by
  induction k generalizing s with
  | zero => rfl
  | succ n ih =>
    unfold riceLoop
    rcases h1 : read_rice_sint s param with ⟨s1, v⟩
    simp only [h1]
    rcases h2 : riceLoop param n s1 with ⟨s2, vs⟩
    have ihs := ih s1
    rw [h2] at ihs
    simp only [] at ihs
    simp [h2, ihs]

theorem sintLoop_length (numBits k : Nat) (s : St) :
    ((sintLoop numBits k s).2).length = k := by
  induction k generalizing s with
  | zero => rfl
  | succ n ih =>
    unfold sintLoop
    rcases h1 : read_sint s numBits with ⟨s1, v⟩
    simp only [h1]
    rcases h2 : sintLoop numBits n s1 with ⟨s2, vs⟩
    have ihs := ih s1
    rw [h2] at ihs
    simp only [] at ihs
    simp [h2, ihs]

theorem readResidualPartition_length (s : St) (paramBits escapeParam count : Nat) :
    ((readResidualPartition s paramBits escapeParam count).2).length = count := by
  unfold readResidualPartition
  rcases h1 : read_uint s paramBits with ⟨s1, param⟩
  simp only [h1]
  split_ifs with hlt hz
  · exact riceLoop_length param count s1
  · simp
  · exact sintLoop_length _ count _

theorem residualPartitionsLoop_length (paramBits escapeParam count k : Nat) (s : St) :
    ((residualPartitionsLoop paramBits escapeParam count k s).2).length = k * count := by
  induction k generalizing s with
  | zero => simp [residualPartitionsLoop]
  | succ n ih =>
    unfold residualPartitionsLoop
    rcases h1 : readResidualPartition s paramBits escapeParam count with ⟨s1, xs⟩
    simp only [h1]
    rcases h2 : residualPartitionsLoop paramBits escapeParam count n s1 with ⟨s2, ys⟩
    have ihs := ih s1
    rw [h2] at ihs
    simp only [] at ihs
    have hx := readResidualPartition_length s paramBits escapeParam count
    rw [h1] at hx
    simp only [] at hx
    simp [h2, hx, ihs, Nat.succ_mul, Nat.add_comm]

/-- **C8**: residual decoding.  A 2-bit method of 2 or 3 yields
`RESERVED_RESIDUAL_CODING_METHOD`; method 0 proceeds with 4-bit Rice
parameters and escape `0xF`, method 1 with 5-bit parameters and escape
`0x1F`; a block size not divisible by the `2^partition_order` partitions
yields `BLOCK_SIZE_NOT_DIVISIBLE_RICE`; otherwise decoding succeeds and the
residual count is `(block_size >> partition_order) - warm_up_samples` for the
first partition plus `block_size >> partition_order` for each of the
remaining `2^partition_order - 1` partitions; an escaped partition
(parameter ≥ escape) reads a 5-bit raw width, emitting all-zero residuals
when the width is 0 and raw signed values of that width otherwise. -/
theorem C8_residual_coding_structure :
    (∀ (s : St) (w bs : Nat), (read_uint s 2).2 ≥ 2 →
      (decode_residuals s w bs).2.1 = FLAC_DECODER_ERROR_RESERVED_RESIDUAL_CODING_METHOD) ∧
    (∀ (s : St) (w bs : Nat), (read_uint s 2).2 = 0 →
      decode_residuals s w bs = decodeResidualsWithMethod (read_uint s 2).1 4 15 w bs) ∧
    (∀ (s : St) (w bs : Nat), (read_uint s 2).2 = 1 →
      decode_residuals s w bs = decodeResidualsWithMethod (read_uint s 2).1 5 31 w bs) ∧
    (∀ (s : St) (pb ep w bs : Nat), bs % 2 ^ (read_uint s 4).2 ≠ 0 →
      (decodeResidualsWithMethod s pb ep w bs).2.1 =
        FLAC_DECODER_ERROR_BLOCK_SIZE_NOT_DIVISIBLE_RICE) ∧
    (∀ (s : St) (pb ep w bs : Nat), bs % 2 ^ (read_uint s 4).2 = 0 →
      (decodeResidualsWithMethod s pb ep w bs).2.1 = FLAC_DECODER_SUCCESS ∧
      ((decodeResidualsWithMethod s pb ep w bs).2.2).length =
        (bs / 2 ^ (read_uint s 4).2 - w) +
          (2 ^ (read_uint s 4).2 - 1) * (bs / 2 ^ (read_uint s 4).2)) ∧
    (∀ (s : St) (pb ep c : Nat), ¬(read_uint s pb).2 < ep →
      (read_uint (read_uint s pb).1 5).2 = 0 →
      (readResidualPartition s pb ep c).2 = List.replicate c 0) ∧
    (∀ (s : St) (pb ep c : Nat), ¬(read_uint s pb).2 < ep →
      (read_uint (read_uint s pb).1 5).2 ≠ 0 →
      readResidualPartition s pb ep c =
        sintLoop (read_uint (read_uint s pb).1 5).2 c (read_uint (read_uint s pb).1 5).1) := by
  refine ⟨?_, ?_, ?_, ?_, ?_, ?_, ?_⟩
  · intro s w bs hm
    unfold decode_residuals
    rcases h2 : read_uint s 2 with ⟨s1, m⟩
    rw [h2] at hm
    simp only [] at hm
    simp [hm]
  · intro s w bs hm
    unfold decode_residuals
    rcases h2 : read_uint s 2 with ⟨s1, m⟩
    rw [h2] at hm
    simp only [] at hm
    subst hm
    simp
  · intro s w bs hm
    unfold decode_residuals
    rcases h2 : read_uint s 2 with ⟨s1, m⟩
    rw [h2] at hm
    simp only [] at hm
    subst hm
    simp
  · intro s pb ep w bs hdiv
    unfold decodeResidualsWithMethod
    rcases h4 : read_uint s 4 with ⟨s1, po⟩
    rw [h4] at hdiv
    simp only [] at hdiv
    simp [hdiv]
  · intro s pb ep w bs hdiv
    unfold decodeResidualsWithMethod
    rcases h4 : read_uint s 4 with ⟨s1, po⟩
    rw [h4] at hdiv
    simp only [] at hdiv
    simp only []
    rw [if_neg (by simp [hdiv])]
    rcases hp : readResidualPartition s1 pb ep (bs / 2 ^ po - w) with ⟨s2, xs⟩
    simp only [hp]
    rcases hq : residualPartitionsLoop pb ep (bs / 2 ^ po) (2 ^ po - 1) s2 with ⟨s3, ys⟩
    simp only [hq]
    have hx := readResidualPartition_length s1 pb ep (bs / 2 ^ po - w)
    rw [hp] at hx
    simp only [] at hx
    have hy := residualPartitionsLoop_length pb ep (bs / 2 ^ po) (2 ^ po - 1) s2
    rw [hq] at hy
    simp only [] at hy
    exact ⟨by trivial, by simp [hx, hy]⟩
  · intro s pb ep c hesc hz
    unfold readResidualPartition
    rcases h1 : read_uint s pb with ⟨s1, param⟩
    rw [h1] at hesc hz
    simp only [] at hesc hz ⊢
    rw [if_neg hesc]
    rcases h5 : read_uint s1 5 with ⟨s2, nb⟩
    rw [h5] at hz
    simp only [] at hz
    simp [hz]
  · intro s pb ep c hesc hnz
    unfold readResidualPartition
    rcases h1 : read_uint s pb with ⟨s1, param⟩
    rw [h1] at hesc hnz
    simp only [] at hesc hnz ⊢
    rw [if_neg hesc]
    rcases h5 : read_uint s1 5 with ⟨s2, nb⟩
    rw [h5] at hnz
    simp only [] at hnz
    simp [hnz]

-- ============================================================================
-- C9 : wasted-bits shift
-- ============================================================================

theorem setSlice_length (vs : List Int) (l : List Int) (off : Nat) :
    (setSlice l off vs).length = l.length := by
  induction vs generalizing l off with
  | nil => rfl
  | cons v vs ih =>
    unfold setSlice
    rw [ih]
    simp

theorem setSlice_cons_succ (vs : List Int) (x : Int) (l : List Int) (off : Nat) :
    setSlice (x :: l) (off + 1) vs = x :: setSlice l off vs := by
  induction vs generalizing x l off with
  | nil => rfl
  | cons v vs ih =>
    unfold setSlice
    simp only [List.set]
    exact ih x (l.set off v) (off + 1)

theorem setSlice_replicate (n : Nat) (a b : Int) :
    setSlice (List.replicate n a) 0 (List.replicate n b) = List.replicate n b := by
  induction n with
  | zero => rfl
  | succ n ih =>
    simp only [List.replicate_succ]
    unfold setSlice
    simp only [List.set]
    rw [setSlice_cons_succ, ih]

theorem getD_set_eq (l : List Int) (n : Nat) (a : Int) (h : n < l.length) :
    (l.set n a).getD n 0 = a := by
  induction l generalizing n with
  | nil => simp at h
  | cons x l ih =>
    cases n with
    | zero => rfl
    | succ n =>
      simp only [List.set, List.getD_cons_succ]
      exact ih n (by simpa using h)

theorem getD_set_ne (l : List Int) (n m : Nat) (a : Int) (h : n ≠ m) :
    (l.set n a).getD m 0 = l.getD m 0 := by
  induction l generalizing n m with
  | nil => rfl
  | cons x l ih =>
    cases n with
    | zero =>
      cases m with
      | zero => exact absurd rfl h
      | succ m => rfl
    | succ n =>
      cases m with
      | zero => rfl
      | succ m =>
        simp only [List.set, List.getD_cons_succ]
        exact ih n m (fun hh => h (by rw [hh]))

theorem setSlice_getD_lt (vs : List Int) (l : List Int) (off j : Nat) (h : j < off) :
    (setSlice l off vs).getD j 0 = l.getD j 0 := by
  induction vs generalizing l off with
  | nil => rfl
  | cons v vs ih =>
    unfold setSlice
    rw [ih (l.set off v) (off + 1) (by omega)]
    exact getD_set_ne l off j v (by omega)

theorem setSlice_getD (vs : List Int) (l : List Int) (off i : Nat)
    (hi : i < vs.length) (hlen : off + vs.length ≤ l.length) :
    (setSlice l off vs).getD (off + i) 0 = vs.getD i 0 := by
  induction vs generalizing l off i with
  | nil => simp at hi
  | cons v vs ih =>
    unfold setSlice
    cases i with
    | zero =>
      simp only [Nat.add_zero]
      rw [setSlice_getD_lt vs (l.set off v) (off + 1) off (by omega)]
      exact getD_set_eq l off v (by simp at hlen; omega)
    | succ i =>
      have : off + (i + 1) = (off + 1) + i := by omega
      rw [this, ih (l.set off v) (off + 1) i (by simpa using hi)
        (by simp at hlen ⊢; omega)]
      rfl

theorem getD_replicate (n i : Nat) (a : Int) (h : i < n) :
    (List.replicate n a).getD i 0 = a := by
  induction n generalizing i with
  | zero => omega
  | succ n ih =>
    cases i with
    | zero => rfl
    | succ i =>
      simp only [List.replicate_succ, List.getD_cons_succ]
      exact ih i (by omega)

theorem getD_map0 (f : Int → Int) (xs : List Int) (i : Nat) (h : i < xs.length) :
    (xs.map f).getD i 0 = f (xs.getD i 0) := by
  induction xs generalizing i with
  | nil => simp at h
  | cons x xs ih =>
    cases i with
    | zero => rfl
    | succ i =>
      simp only [List.map, List.getD_cons_succ]
      exact ih i (by simpa using h)

theorem getD_take (l : List Int) (n i : Nat) (h : i < n) :
    ((l.take n).getD i 0 : Int) = l.getD i 0 := by
  induction l generalizing n i with
  | nil => simp
  | cons x l ih =>
    cases n with
    | zero => omega
    | succ n =>
      cases i with
      | zero => rfl
      | succ i =>
        simp only [List.take, List.getD_cons_succ]
        exact ih n i (by omega)

theorem getD_drop (l : List Int) (off i : Nat) :
    ((l.drop off).getD i 0 : Int) = l.getD (off + i) 0 := by
  induction l generalizing off with
  | nil => simp
  | cons x l ih =>
    cases off with
    | zero => simp
    | succ off =>
      have : off + 1 + i = (off + i) + 1 := by omega
      rw [this]
      simp only [List.drop, List.getD_cons_succ]
      exact ih off

theorem shiftRegion_getD (l : List Int) (off bs sh i : Nat)
    (hi : i < bs) (hlen : off + bs ≤ l.length) :
    (shiftRegion l off bs sh).getD (off + i) 0 =
      wrap32 (l.getD (off + i) 0 * 2 ^ sh) := by
  unfold shiftRegion
  have hml : (((l.drop off).take bs).map fun x => wrap32 (x * 2 ^ sh)).length = bs := by
    simp
    omega
  rw [setSlice_getD _ l off i (by omega) (by omega)]
  rw [getD_map0 _ _ i (by simp; omega)]
  rw [getD_take _ bs i hi, getD_drop]

theorem loadTailBytes_bsam (k : Nat) (s : St) :
    (loadTailBytes s k).block_samples = s.block_samples := by
  induction k generalizing s with
  | zero => rfl
  | succ n ih => exact ih _

theorem refill_bsam (s : St) :
    ((refill_bit_buffer s).1).block_samples = s.block_samples := by
  unfold refill_bit_buffer
  split_ifs <;> simp [loadTailBytes_bsam]

theorem read_uint_bsam (s : St) (n : Nat) :
    ((read_uint s n).1).block_samples = s.block_samples := by
  unfold read_uint
  simp only []
  split_ifs <;> simp [refill_bsam s]

theorem read_sint_bsam (s : St) (n : Nat) :
    ((read_sint s n).1).block_samples = s.block_samples := by
  unfold read_sint
  simp only []
  by_cases h1 : n > 32
  · rw [if_pos h1]
    rcases hu : read_uint s (n - 32) with ⟨s1, upper⟩
    have e1 := read_uint_bsam s (n - 32)
    rw [hu] at e1
    rcases hl : read_uint s1 32 with ⟨s2, lower⟩
    have e2 := read_uint_bsam s1 32
    rw [hl] at e2
    simp only [] at e1 e2
    simp [hu, hl, e1, e2]
  · rw [if_neg h1]
    rcases hu : read_uint s n with ⟨s1, v⟩
    have e1 := read_uint_bsam s n
    rw [hu] at e1
    simp only [] at e1
    split_ifs <;> simp [hu, e1]

theorem riceUnaryLoop_bsam (fuel : Nat) (s : St) (u : Nat) :
    ((riceUnaryLoop fuel s u).1).block_samples = s.block_samples := by
  induction fuel generalizing s u with
  | zero => rfl
  | succ n ih =>
    unfold riceUnaryLoop
    simp only []
    by_cases hbb : s.bit_buffer_length = 0
    · rw [if_pos hbb]
      rcases hrf : refill_bit_buffer s with ⟨t, fl⟩
      have e := refill_bsam s
      rw [hrf] at e
      simp only [] at e
      simp only [hrf]
      split_ifs <;> simp_all [ih]
    · rw [if_neg hbb]
      split_ifs <;> simp_all [ih]

theorem read_rice_sint_bsam (s : St) (param : Nat) :
    ((read_rice_sint s param).1).block_samples = s.block_samples := by
  unfold read_rice_sint
  rcases hrl : riceUnaryLoop (s.bytes_left + 2) s 0 with ⟨s1, ou⟩
  have e1 := riceUnaryLoop_bsam (s.bytes_left + 2) s 0
  rw [hrl] at e1
  simp only [] at e1
  rcases ou with _ | u
  · simpa using e1
  · simp only []
    rcases hu : read_uint s1 param with ⟨s2, b⟩
    have e2 := read_uint_bsam s1 param
    rw [hu] at e2
    simp only [] at e2
    simp [hu, e2, e1]

theorem riceLoop_bsam (param k : Nat) (s : St) :
    ((riceLoop param k s).1).block_samples = s.block_samples := by
  induction k generalizing s with
  | zero => rfl
  | succ n ih =>
    unfold riceLoop
    rcases h1 : read_rice_sint s param with ⟨s1, v⟩
    have e1 := read_rice_sint_bsam s param
    rw [h1] at e1
    rcases h2 : riceLoop param n s1 with ⟨s2, vs⟩
    have e2 := ih s1
    rw [h2] at e2
    simp only [] at e1 e2
    simp [h1, h2, e1, e2]

theorem sintLoop_bsam (numBits k : Nat) (s : St) :
    ((sintLoop numBits k s).1).block_samples = s.block_samples := by
  induction k generalizing s with
  | zero => rfl
  | succ n ih =>
    unfold sintLoop
    rcases h1 : read_sint s numBits with ⟨s1, v⟩
    have e1 := read_sint_bsam s numBits
    rw [h1] at e1
    rcases h2 : sintLoop numBits n s1 with ⟨s2, vs⟩
    have e2 := ih s1
    rw [h2] at e2
    simp only [] at e1 e2
    simp [h1, h2, e1, e2]

theorem readSints_bsam (numBits k : Nat) (s : St) :
    ((readSints numBits k s).1).block_samples = s.block_samples := by
  induction k generalizing s with
  | zero => rfl
  | succ n ih =>
    unfold readSints
    rcases h1 : read_sint s numBits with ⟨s1, v⟩
    have e1 := read_sint_bsam s numBits
    rw [h1] at e1
    rcases h2 : readSints numBits n s1 with ⟨s2, vs⟩
    have e2 := ih s1
    rw [h2] at e2
    simp only [] at e1 e2
    simp [h1, h2, e1, e2]

theorem readSints_length (numBits k : Nat) (s : St) :
    ((readSints numBits k s).2).length = k := by
  induction k generalizing s with
  | zero => rfl
  | succ n ih =>
    unfold readSints
    rcases h1 : read_sint s numBits with ⟨s1, v⟩
    simp only [h1]
    rcases h2 : readSints numBits n s1 with ⟨s2, vs⟩
    have ihs := ih s1
    rw [h2] at ihs
    simp only [] at ihs
    simp [h2, ihs]

theorem readResidualPartition_bsam (s : St) (paramBits escapeParam count : Nat) :
    ((readResidualPartition s paramBits escapeParam count).1).block_samples =
      s.block_samples := by
  unfold readResidualPartition
  rcases h1 : read_uint s paramBits with ⟨s1, param⟩
  have e1 := read_uint_bsam s paramBits
  rw [h1] at e1
  simp only [] at e1
  simp only [h1]
  split_ifs with hlt hz
  · rw [riceLoop_bsam]
    exact e1
  · rw [read_uint_bsam]
    exact e1
  · rw [sintLoop_bsam, read_uint_bsam]
    exact e1

theorem residualPartitionsLoop_bsam (paramBits escapeParam count k : Nat) (s : St) :
    ((residualPartitionsLoop paramBits escapeParam count k s).1).block_samples =
      s.block_samples := by
  induction k generalizing s with
  | zero => rfl
  | succ n ih =>
    unfold residualPartitionsLoop
    rcases h1 : readResidualPartition s paramBits escapeParam count with ⟨s1, xs⟩
    have e1 := readResidualPartition_bsam s paramBits escapeParam count
    rw [h1] at e1
    rcases h2 : residualPartitionsLoop paramBits escapeParam count n s1 with ⟨s2, ys⟩
    have e2 := ih s1
    rw [h2] at e2
    simp only [] at e1 e2
    simp [h1, h2, e1, e2]

theorem decodeResidualsWithMethod_bsam (s : St) (pb ep w bs : Nat) :
    ((decodeResidualsWithMethod s pb ep w bs).1).block_samples = s.block_samples := by
  unfold decodeResidualsWithMethod
  rcases h4 : read_uint s 4 with ⟨s1, po⟩
  have e1 := read_uint_bsam s 4
  rw [h4] at e1
  simp only [] at e1
  simp only [h4]
  split_ifs with hdiv
  · exact e1
  · rcases hp : readResidualPartition s1 pb ep (bs / 2 ^ po - w) with ⟨s2, xs⟩
    have e2 := readResidualPartition_bsam s1 pb ep (bs / 2 ^ po - w)
    rw [hp] at e2
    rcases hq : residualPartitionsLoop pb ep (bs / 2 ^ po) (2 ^ po - 1) s2 with ⟨s3, ys⟩
    have e3 := residualPartitionsLoop_bsam pb ep (bs / 2 ^ po) (2 ^ po - 1) s2
    rw [hq] at e3
    simp only [] at e2 e3
    simp [hp, hq, e3, e2, e1]

theorem decode_residuals_bsam (s : St) (w bs : Nat) :
    ((decode_residuals s w bs).1).block_samples = s.block_samples := by
  unfold decode_residuals
  rcases h2 : read_uint s 2 with ⟨s1, m⟩
  have e1 := read_uint_bsam s 2
  rw [h2] at e1
  simp only [] at e1
  simp only [h2]
  split_ifs <;> simp [decodeResidualsWithMethod_bsam, e1]

theorem wastedLoop_bsam (fuel : Nat) (s : St) (sh : Nat) :
    ((wastedLoop fuel s sh).1).block_samples = s.block_samples := by
  induction fuel generalizing s sh with
  | zero => rfl
  | succ n ih =>
    unfold wastedLoop
    rcases h1 : read_uint s 1 with ⟨s1, b⟩
    have e1 := read_uint_bsam s 1
    rw [h1] at e1
    simp only [] at e1
    simp only [h1]
    split_ifs <;> simp_all [ih]

theorem decode_fixed_subframe_len (s : St) (bs off po d : Nat) :
    (((decode_fixed_subframe s bs off po d).1).block_samples).length =
      s.block_samples.length := by
  unfold decode_fixed_subframe
  by_cases h : po > 4
  · rw [if_pos h]
  · rw [if_neg h]
    rcases hw : readSints d po s with ⟨s1, warmups⟩
    have ew := readSints_bsam d po s
    rw [hw] at ew
    simp only [] at ew
    simp only [hw]
    rcases hdr : decode_residuals
        { s1 with block_samples := setSlice s1.block_samples off warmups } po bs
      with ⟨s2, r, residuals⟩
    have edr := decode_residuals_bsam
      { s1 with block_samples := setSlice s1.block_samples off warmups } po bs
    rw [hdr] at edr
    simp only [] at edr
    simp only [hdr]
    split_ifs with hr
    · simp only []
      rw [edr, setSlice_length, ew]
    · simp only []
      rw [setSlice_length, edr, setSlice_length, ew]

theorem decode_lpc_subframe_len (s : St) (bs off lo d : Nat) :
    (((decode_lpc_subframe s bs off lo d).1).block_samples).length =
      s.block_samples.length := by
  unfold decode_lpc_subframe
  simp only []
  rcases hw : readSints d lo s with ⟨s1, warmups⟩
  have ew := readSints_bsam d lo s
  rw [hw] at ew
  simp only [] at ew
  simp only [hw]
  rcases hp : read_uint { s1 with block_samples := setSlice s1.block_samples off warmups } 4
    with ⟨s2, precision0⟩
  have ep := read_uint_bsam { s1 with block_samples := setSlice s1.block_samples off warmups } 4
  rw [hp] at ep
  simp only [] at ep
  simp only [hp]
  rcases hq : read_sint s2 5 with ⟨s3, qshift⟩
  have eq3 := read_sint_bsam s2 5
  rw [hq] at eq3
  simp only [] at eq3
  simp only [hq]
  rcases hcf : readSints (precision0 + 1) lo s3 with ⟨s4, coefsRev⟩
  have ecf := readSints_bsam (precision0 + 1) lo s3
  rw [hcf] at ecf
  simp only [] at ecf
  simp only [hcf]
  rcases hdr : decode_residuals s4 lo bs with ⟨s5, r, residuals⟩
  have edr := decode_residuals_bsam s4 lo bs
  rw [hdr] at edr
  simp only [] at edr
  simp only [hdr]
  split_ifs with hr
  · simp only []
    rw [edr, ecf, eq3, ep, setSlice_length, ew]
  · simp only []
    rw [setSlice_length, edr, ecf, eq3, ep, setSlice_length, ew]

theorem subframeTypeDispatch_shr (s4 : St) (bs d off ty sh : Nat) :
    (subframeTypeDispatch s4 bs d off ty sh).2.2 = sh := by
  unfold subframeTypeDispatch
  by_cases h0 : ty = 0
  · rw [if_pos h0]
  · rw [if_neg h0]
    by_cases h1 : ty = 1
    · rw [if_pos h1]
    · rw [if_neg h1]
      by_cases h8 : 8 ≤ ty ∧ ty ≤ 12
      · rw [if_pos h8]
        rcases hf : decode_fixed_subframe s4 bs off (ty - 8) (effDepth d sh) with ⟨s5, rf⟩
        simp only []
        split_ifs <;> rfl
      · rw [if_neg h8]
        by_cases h32 : 32 ≤ ty ∧ ty ≤ 63
        · rw [if_pos h32]
          rcases hf : decode_lpc_subframe s4 bs off (ty - 31) (effDepth d sh) with ⟨s5, rf⟩
          simp only []
          split_ifs <;> rfl
        · rw [if_neg h32]

theorem subframeTypeDispatch_shift (s4 : St) (bs d off ty sh : Nat)
    (sf : St) (r : FLACDecoderResult) (shr : Nat)
    (hc : subframeTypeDispatch s4 bs d off ty sh = (sf, r, shr))
    (hr : r = FLAC_DECODER_SUCCESS) (hsh : 0 < shr)
    (hlen : off + bs ≤ s4.block_samples.length) :
    ∀ i, i < bs → ∃ x : Int,
      sf.block_samples.getD (off + i) 0 = wrap32 (x * 2 ^ shr) := by
  subst hr
  have hshr := subframeTypeDispatch_shr s4 bs d off ty sh
  rw [hc] at hshr
  simp only [] at hshr
  have hshr2 := hshr.symm
  subst hshr2
  unfold subframeTypeDispatch at hc
  by_cases h0 : ty = 0
  · rw [if_pos h0] at hc
    rcases h5 : read_sint s4 (effDepth d sh) with ⟨s5, v⟩
    rw [h5] at hc
    simp only [] at hc
    have e5 := read_sint_bsam s4 (effDepth d sh)
    rw [h5] at e5
    simp only [] at e5
    injection hc with hA hBC
    intro i hi
    refine ⟨v, ?_⟩
    rw [← hA]
    show (setSlice s5.block_samples off
      (List.replicate bs (wrap32 (v * 2 ^ sh)))).getD (off + i) 0 = wrap32 (v * 2 ^ sh)
    rw [setSlice_getD _ _ off i (by simpa using hi)
      (by simp only [List.length_replicate]; rw [e5]; exact hlen)]
    exact getD_replicate bs i _ hi
  · rw [if_neg h0] at hc
    by_cases h1 : ty = 1
    · rw [if_pos h1] at hc
      rcases h5 : readSints (effDepth d sh) bs s4 with ⟨s5, vs⟩
      rw [h5] at hc
      simp only [] at hc
      have e5 := readSints_bsam (effDepth d sh) bs s4
      rw [h5] at e5
      simp only [] at e5
      have hl5 := readSints_length (effDepth d sh) bs s4
      rw [h5] at hl5
      simp only [] at hl5
      injection hc with hA hBC
      intro i hi
      refine ⟨vs.getD i 0, ?_⟩
      rw [← hA]
      show (setSlice s5.block_samples off
        (vs.map fun w => wrap32 (w * 2 ^ sh))).getD (off + i) 0 = wrap32 (vs.getD i 0 * 2 ^ sh)
      rw [setSlice_getD _ _ off i (by simp only [List.length_map, hl5]; exact hi)
        (by simp only [List.length_map, hl5]; rw [e5]; exact hlen)]
      rw [getD_map0 _ _ i (by rw [hl5]; exact hi)]
    · rw [if_neg h1] at hc
      by_cases h8 : 8 ≤ ty ∧ ty ≤ 12
      · rw [if_pos h8] at hc
        rcases hf : decode_fixed_subframe s4 bs off (ty - 8) (effDepth d sh) with ⟨s5, rf⟩
        rw [hf] at hc
        simp only [] at hc
        have ef := decode_fixed_subframe_len s4 bs off (ty - 8) (effDepth d sh)
        rw [hf] at ef
        simp only [] at ef
        by_cases hrf : rf = FLAC_DECODER_SUCCESS
        · rw [if_neg (by simp [hrf])] at hc
          by_cases hsp : sh > 0
          · rw [if_pos hsp] at hc
            injection hc with hA hBC
            intro i hi
            refine ⟨s5.block_samples.getD (off + i) 0, ?_⟩
            rw [← hA]
            show (shiftRegion s5.block_samples off bs sh).getD (off + i) 0 = _
            exact shiftRegion_getD s5.block_samples off bs sh i hi (by rw [ef]; exact hlen)
          · rw [if_neg hsp] at hc
            exact absurd hsh hsp
        · rw [if_pos hrf] at hc
          injection hc with hA hBC
          injection hBC with hB hC
          exact absurd hB hrf
      · rw [if_neg h8] at hc
        by_cases h32 : 32 ≤ ty ∧ ty ≤ 63
        · rw [if_pos h32] at hc
          rcases hf : decode_lpc_subframe s4 bs off (ty - 31) (effDepth d sh) with ⟨s5, rf⟩
          rw [hf] at hc
          simp only [] at hc
          have ef := decode_lpc_subframe_len s4 bs off (ty - 31) (effDepth d sh)
          rw [hf] at ef
          simp only [] at ef
          by_cases hrf : rf = FLAC_DECODER_SUCCESS
          · rw [if_neg (by simp [hrf])] at hc
            by_cases hsp : sh > 0
            · rw [if_pos hsp] at hc
              injection hc with hA hBC
              intro i hi
              refine ⟨s5.block_samples.getD (off + i) 0, ?_⟩
              rw [← hA]
              show (shiftRegion s5.block_samples off bs sh).getD (off + i) 0 = _
              exact shiftRegion_getD s5.block_samples off bs sh i hi (by rw [ef]; exact hlen)
            · rw [if_neg hsp] at hc
              exact absurd hsh hsp
          · rw [if_pos hrf] at hc
            injection hc with hA hBC
            injection hBC with hB hC
            exact absurd hB hrf
        · rw [if_neg h32] at hc
          injection hc with hA hBC
          injection hBC with hB hC
          exact absurd hB (by simp)

/-- A decoder state holding the two-byte constant subframe
`0 000000 1 001 00001`: padding 0, type 0 (constant), wasted-bits flag 1,
unary shift code `001` (shift 3), then the 5-bit constant value 1 at
effective depth `8 - 3 = 5`; the working buffer holds one 4-sample channel. -/
def stC9 : St :=
  { buffer := [1, 33], bytes_left := 2, block_samples := List.replicate 4 0 }

set_option maxHeartbeats 1000000 in
/-- **C9**: for every subframe decoded with a wasted-bits shift `s > 0`
(any subframe type), each of the `block_size` samples of the subframe region
is a value left-shifted by `s` (`wrap32 (x <<< s)` for some `x`); and
concretely, a constant subframe of block size 4 coded with shift 3 and
constant value 1 (effective depth 5) decodes successfully into the value
`1 <<< 3 = 8` for every sample of the subframe. -/
theorem C9_wasted_bits_shift :
    (∀ (s : St) (bs d off : Nat) (sf : St) (r : FLACDecoderResult) (sh : Nat),
      decode_subframe_core s bs d off = (sf, r, sh) →
      r = FLAC_DECODER_SUCCESS → 0 < sh → off + bs ≤ s.block_samples.length →
      ∀ i, i < bs → ∃ x : Int,
        sf.block_samples.getD (off + i) 0 = wrap32 (x * 2 ^ sh)) ∧
    ((decode_subframe_core stC9 4 8 0).2.1 = FLAC_DECODER_SUCCESS ∧
     (decode_subframe_core stC9 4 8 0).2.2 = 3 ∧
     ((decode_subframe_core stC9 4 8 0).1).block_samples = List.replicate 4 8) := by
  constructor
  · intro s bs d off sf r sh hc hr hsh hlen
    subst hr
    unfold decode_subframe_core at hc
    rcases h1 : read_uint s 1 with ⟨s1, pad⟩
    have e1 := read_uint_bsam s 1
    rw [h1] at hc e1
    simp only [] at hc e1
    rcases h2 : read_uint s1 6 with ⟨s2, ty⟩
    have e2 := read_uint_bsam s1 6
    rw [h2] at hc e2
    simp only [] at hc e2
    rcases h3 : read_uint s2 1 with ⟨s3, sh0⟩
    have e3 := read_uint_bsam s2 1
    rw [h3] at hc e3
    simp only [] at hc e3
    by_cases h01 : sh0 = 1
    · rw [if_pos h01] at hc
      rcases hwl : wastedLoop (8 * s3.bytes_left + s3.bit_buffer_length + 2) s3 1
        with ⟨s4, osh⟩
      have e4 := wastedLoop_bsam (8 * s3.bytes_left + s3.bit_buffer_length + 2) s3 1
      rw [hwl] at hc e4
      simp only [] at hc e4
      rcases osh with _ | shv
      · simp only [] at hc
        injection hc with hA hBC
        injection hBC with hB hC
        exact absurd hB (by simp)
      · simp only [] at hc
        exact subframeTypeDispatch_shift s4 bs d off ty shv sf _ sh hc rfl hsh
          (by rw [e4, e3, e2, e1]; exact hlen)
    · rw [if_neg h01] at hc
      simp only [] at hc
      exact subframeTypeDispatch_shift s3 bs d off ty 0 sf _ sh hc rfl hsh
        (by rw [e3, e2, e1]; exact hlen)
  · exact ⟨by decide, by decide, by decide⟩

-- ============================================================================
-- C2 : 32-bit / 64-bit LPC agreement under the overflow analysis
-- ============================================================================

theorem wrap32_eq_self (x : Int) (h1 : -2147483648 ≤ x) (h2 : x < 2147483648) :
    wrap32 x = x := by
  unfold wrap32
  rw [Int.emod_eq_of_lt (by linarith) (by linarith)]
  ring

theorem wrap64_eq_self (x : Int) (h1 : -9223372036854775808 ≤ x)
    (h2 : x < 9223372036854775808) : wrap64 x = x := by
  unfold wrap64
  rw [Int.emod_eq_of_lt (by linarith) (by linarith)]
  ring

theorem asr_abs_le (x : Int) (s : Nat) : |asr x s| ≤ |x| := by
  unfold asr
  rw [Int.fdiv_eq_ediv _ (by positivity)]
  exact Int.abs_ediv_le_abs _ _

theorem bitsAux_le_iff (fuel n k : Nat) (hn : n < 2 ^ fuel) (hk : k ≤ fuel) :
    bitsAux fuel n ≤ k ↔ n < 2 ^ k := by
  induction fuel generalizing n k with
  | zero =>
    have : n = 0 := by omega
    subst this
    simp [bitsAux, Nat.pos_pow_of_pos]
  | succ f ih =>
    unfold bitsAux
    by_cases h0 : n = 0
    · subst h0
      simp [Nat.pos_pow_of_pos]
    · rw [if_neg h0]
      cases k with
      | zero => simp [h0]
      | succ k =>
        have hn2 : n / 2 < 2 ^ f := by
          have : (2 : Nat) ^ (f + 1) = 2 * 2 ^ f := by ring
          omega
        rw [Nat.succ_le_succ_iff, ih (n / 2) k hn2 (by omega)]
        have : (2 : Nat) ^ (k + 1) = 2 * 2 ^ k := by ring
        omega

theorem absSum_foldl_eq (cs : List Int) (a : Nat)
    (h : a + (cs.map Int.natAbs).sum < 4294967296) :
    cs.foldl (fun a c => (a + c.natAbs) % 4294967296) a =
      a + (cs.map Int.natAbs).sum := by
  induction cs generalizing a with
  | nil => simp
  | cons c cs ih =>
    simp only [List.foldl_cons]
    rw [Nat.mod_eq_of_lt (by simp at h; omega)]
    rw [ih (a + c.natAbs) (by simp at h ⊢; omega)]
    simp
    omega

theorem silog2_le_imp (v : Nat) (hv : v < 9223372036854775808)
    (h : bitmath_silog2 (toInt64 v) ≤ 32) : v < 2147483648 := by
  have htoi : toInt64 v = (v : Int) := by
    unfold toInt64
    rw [Nat.mod_eq_of_lt (by omega)]
    rw [if_pos (by omega)]
  rw [htoi] at h
  unfold bitmath_silog2 at h
  by_cases h0 : v = 0
  · omega
  · rw [if_neg (by exact_mod_cast h0), if_neg (by omega), if_neg (by omega)] at h
    rw [Int.natAbs_ofNat] at h
    have hb : bitsAux 64 v ≤ 31 := by omega
    have := (bitsAux_le_iff 64 v 31 (by omega) (by omega)).mp hb
    simpa using this

theorem can32_pred_bound (d : Nat) (coefs : List Int) (shift : Nat)
    (hd1 : 1 ≤ d) (hd2 : d ≤ 33)
    (hsum : (coefs.map Int.natAbs).sum < 4294967296)
    (hprod : 2 ^ (d - 1) * (coefs.map Int.natAbs).sum < 9223372036854775808)
    (h32 : can_use_32bit_lpc d coefs coefs.length shift = true) :
    2 ^ (d - 1) * (coefs.map Int.natAbs).sum < 2147483648 := by
  have hS64 : (2 : Nat) ^ (d - 1) < 18446744073709551616 := by
    have : (2 : Nat) ^ (d - 1) ≤ 2 ^ 32 := Nat.pow_le_pow_right (by omega) (by omega)
    omega
  have habs : absSumCoeffs coefs coefs.length = (coefs.map Int.natAbs).sum := by
    unfold absSumCoeffs
    rw [List.take_length]
    simpa using absSum_foldl_eq coefs 0 (by omega)
  have hval : lpc_max_prediction_value_before_shift d coefs coefs.length =
      2 ^ (d - 1) * (coefs.map Int.natAbs).sum := by
    unfold lpc_max_prediction_value_before_shift
    rw [habs, Nat.mod_eq_of_lt hS64, Nat.mod_eq_of_lt (by omega)]
  unfold can_use_32bit_lpc at h32
  rw [Bool.and_eq_true, decide_eq_true_iff, decide_eq_true_iff] at h32
  have hbps := h32.2
  unfold lpc_max_prediction_before_shift_bps at hbps
  rw [hval] at hbps
  exact silog2_le_imp _ hprod hbps

theorem lpcSum_spec (S : Int) (hS0 : 0 ≤ S) (buf : List Int) :
    ∀ (cs : List Int) (j : Nat) (acc : Int) (B : Int),
      |acc| + S * ((cs.map Int.natAbs).sum : Int) ≤ B → B < 2147483648 →
      (∀ k, j ≤ k → k < j + cs.length → -S ≤ buf.getD k 0 ∧ buf.getD k 0 < S) →
      lpcSumAux32 buf cs j acc = lpcSumAux64 buf cs j acc ∧
      |lpcSumAux64 buf cs j acc| ≤ B := by
  intro cs
  induction cs with
  | nil =>
    intro j acc B hB hB31 hrd
    refine ⟨rfl, ?_⟩
    simpa using hB
  | cons c cs ih =>
    intro j acc B hB hB31 hrd
    have hvb := hrd j (le_refl j) (by simp)
    have hvabs : |buf.getD j 0| ≤ S := abs_le.mpr ⟨hvb.1, by linarith [hvb.2]⟩
    have hsum_split : (((c :: cs).map Int.natAbs).sum : Int) =
        |c| + ((cs.map Int.natAbs).sum : Int) := by
      push_cast [List.map_cons, List.sum_cons]
      rw [Int.abs_eq_natAbs]
    rw [hsum_split] at hB
    have hacc0 : 0 ≤ |acc| := abs_nonneg acc
    have hScs : 0 ≤ S * ((cs.map Int.natAbs).sum : Int) :=
      mul_nonneg hS0 (by positivity)
    have hSc : 0 ≤ S * |c| := mul_nonneg hS0 (abs_nonneg c)
    have hBsplit : |acc| + S * |c| + S * ((cs.map Int.natAbs).sum : Int) ≤ B := by
      have : S * (|c| + ((cs.map Int.natAbs).sum : Int)) =
          S * |c| + S * ((cs.map Int.natAbs).sum : Int) := by ring
      linarith [hB, this.symm.le, this.le]
    have hvc : |buf.getD j 0 * c| ≤ S * |c| := by
      rw [abs_mul]
      exact mul_le_mul_of_nonneg_right hvabs (abs_nonneg c)
    have hprod31 : |buf.getD j 0 * c| < 2147483648 := by linarith
    have hprodw := abs_lt.mp hprod31
    have hw32p : wrap32 (buf.getD j 0 * c) = buf.getD j 0 * c :=
      wrap32_eq_self _ (by linarith [hprodw.1]) hprodw.2
    have hw64p : wrap64 (buf.getD j 0 * c) = buf.getD j 0 * c :=
      wrap64_eq_self _ (by linarith [hprodw.1]) (by linarith [hprodw.2])
    have haccp : |acc + buf.getD j 0 * c| ≤ |acc| + S * |c| :=
      le_trans (abs_add _ _) (by linarith [hvc])
    have hacc31 : |acc + buf.getD j 0 * c| < 2147483648 := by linarith
    have haccw := abs_lt.mp hacc31
    have hw32a : wrap32 (acc + buf.getD j 0 * c) = acc + buf.getD j 0 * c :=
      wrap32_eq_self _ (by linarith [haccw.1]) haccw.2
    have hw64a : wrap64 (acc + buf.getD j 0 * c) = acc + buf.getD j 0 * c :=
      wrap64_eq_self _ (by linarith [haccw.1]) (by linarith [haccw.2])
    simp only [lpcSumAux32, lpcSumAux64]
    rw [hw32p, hw64p, hw32a, hw64a]
    exact ih (j + 1) (acc + buf.getD j 0 * c) B (by linarith [haccp])
      hB31 (fun k hk1 hk2 => hrd k (by omega) (by simp at hk2 ⊢; omega))

theorem restoreAux64_preserve (coefs : List Int) (shift : Nat) :
    ∀ (steps i : Nat) (buf : List Int) (j : Nat), j < i + coefs.length →
      (restoreAux64 coefs shift i steps buf).getD j 0 = buf.getD j 0 := by
  intro steps
  induction steps with
  | zero =>
    intro i buf j hj
    rfl
  | succ n ih =>
    intro i buf j hj
    have hstep : restoreAux64 coefs shift i (n + 1) buf =
        restoreAux64 coefs shift (i + 1) n (buf.set (i + coefs.length)
          (wrap32 (buf.getD (i + coefs.length) 0 +
            wrap32 (asr (lpcSumAux64 buf coefs i 0) shift)))) := rfl
    rw [hstep, ih (i + 1) _ j (by omega)]
    exact getD_set_ne _ _ _ _ (by omega)

theorem restoreAux_eq (coefs : List Int) (shift : Nat) (S : Int) (hS1 : 1 ≤ S)
    (hB31 : S * ((coefs.map Int.natAbs).sum : Int) < 2147483648) :
    ∀ (steps i : Nat) (buf : List Int),
      (∀ j, -S ≤ (restoreAux64 coefs shift i steps buf).getD j 0 ∧
            (restoreAux64 coefs shift i steps buf).getD j 0 < S) →
      restoreAux32 coefs shift i steps buf = restoreAux64 coefs shift i steps buf := by
  intro steps
  induction steps with
  | zero =>
    intro i buf h
    rfl
  | succ n ih =>
    intro i buf hbnd
    have hrd : ∀ k, i ≤ k → k < i + coefs.length →
        -S ≤ buf.getD k 0 ∧ buf.getD k 0 < S := by
      intro k hk1 hk2
      have hp := restoreAux64_preserve coefs shift (n + 1) i buf k hk2
      rw [← hp]
      exact hbnd k
    have hsum := lpcSum_spec S (by linarith) buf coefs i 0
      (S * ((coefs.map Int.natAbs).sum : Int)) (by simp) hB31 hrd
    have hasr : |asr (lpcSumAux64 buf coefs i 0) shift| < 2147483648 :=
      lt_of_le_of_lt (le_trans (asr_abs_le _ _) hsum.2) hB31
    have hasrw := abs_lt.mp hasr
    have hw : wrap32 (asr (lpcSumAux64 buf coefs i 0) shift) =
        asr (lpcSumAux64 buf coefs i 0) shift :=
      wrap32_eq_self _ (by linarith [hasrw.1]) hasrw.2
    have hstep64 : restoreAux64 coefs shift i (n + 1) buf =
        restoreAux64 coefs shift (i + 1) n (buf.set (i + coefs.length)
          (wrap32 (buf.getD (i + coefs.length) 0 +
            wrap32 (asr (lpcSumAux64 buf coefs i 0) shift)))) := rfl
    have hstep32 : restoreAux32 coefs shift i (n + 1) buf =
        restoreAux32 coefs shift (i + 1) n (buf.set (i + coefs.length)
          (wrap32 (buf.getD (i + coefs.length) 0 +
            asr (lpcSumAux32 buf coefs i 0) shift))) := rfl
    rw [hstep32, hstep64, hsum.1, hw]
    apply ih (i + 1)
    intro j
    have hj := hbnd j
    rw [hstep64, hw] at hj
    exact hj

theorem getD_mem_or (l : List Int) (j : Nat) : l.getD j 0 ∈ l ∨ l.getD j 0 = 0 := by
  induction l generalizing j with
  | nil => right; rfl
  | cons x l ih =>
    cases j with
    | zero => left; simp
    | succ j =>
      rcases ih j with h | h
      · left
        simp only [List.getD_cons_succ]
        exact List.mem_cons_of_mem x h
      · right
        simpa using h

/-- **C2** (amended): `decode_lpc_subframe` / `decode_fixed_subframe` select
the 32-bit restoration exactly when `can_use_32bit_lpc` is true (and the
64-bit routine otherwise); and when `can_use_32bit_lpc` is true, the
coefficient magnitudes are below the `uint32_t` accumulator range of the
analysis (`Σ|coef| < 2^32` and `2^(depth-1)·Σ|coef| < 2^63`, so the analysis
arithmetic itself does not wrap), and every restored sample of the 64-bit
run lies within the depth's value range, the two restoration routines
produce identical output buffers.  (The unamended claim — the input buffer
in range suffices — is refuted by `C2_32bit_64bit_disagree_within_analysis`.) -/
theorem C2_lpc_32bit_64bit_agree :
    (∀ (d : Nat) (buf : List Int) (N : Nat) (coefs : List Int) (shift : Nat),
      (can_use_32bit_lpc d coefs coefs.length shift = true →
        restore_linear_prediction_dispatch d buf N coefs shift =
          restore_linear_prediction_32bit buf N coefs shift) ∧
      (can_use_32bit_lpc d coefs coefs.length shift = false →
        restore_linear_prediction_dispatch d buf N coefs shift =
          restore_linear_prediction_64bit buf N coefs shift)) ∧
    (∀ (d : Nat) (coefs : List Int) (shift : Nat) (buf : List Int) (N : Nat),
      1 ≤ d → d ≤ 33 →
      (coefs.map Int.natAbs).sum < 4294967296 →
      2 ^ (d - 1) * (coefs.map Int.natAbs).sum < 9223372036854775808 →
      can_use_32bit_lpc d coefs coefs.length shift = true →
      (∀ x ∈ restore_linear_prediction_64bit buf N coefs shift,
        -(2 : Int) ^ (d - 1) ≤ x ∧ x < 2 ^ (d - 1)) →
      restore_linear_prediction_32bit buf N coefs shift =
        restore_linear_prediction_64bit buf N coefs shift) := by
  constructor
  · intro d buf N coefs shift
    constructor
    · intro h
      unfold restore_linear_prediction_dispatch
      rw [if_pos h]
    · intro h
      unfold restore_linear_prediction_dispatch
      rw [if_neg (by simp [h])]
  · intro d coefs shift buf N hd1 hd2 hsum hprod h32 hout
    have hkey := can32_pred_bound d coefs shift hd1 hd2 hsum hprod h32
    have hkeyZ : (2 : Int) ^ (d - 1) * ((coefs.map Int.natAbs).sum : Int) <
        2147483648 := by exact_mod_cast hkey
    have hS1 : (1 : Int) ≤ 2 ^ (d - 1) := by
      have h := pow_pos (show (0 : Int) < 2 by norm_num) (d - 1)
      omega
    unfold restore_linear_prediction_32bit restore_linear_prediction_64bit
    apply restoreAux_eq coefs shift (2 ^ (d - 1)) hS1 hkeyZ
    intro j
    rcases getD_mem_or (restoreAux64 coefs shift 0 (N - coefs.length) buf) j with hm | hz
    · exact hout _ hm
    · rw [hz]
      exact ⟨by linarith, by linarith⟩

/-- C2 witness: depth 16, one coefficient 1, shift 0, buffer `[5, 1]`
(warm-up 5, residual 1): the analysis passes and both routines restore the
second sample to `1 + 5 = 6`. -/
theorem C2_lpc_32bit_64bit_agree_witness :
    restore_linear_prediction_32bit [5, 1] 2 [1] 0 =
      restore_linear_prediction_64bit [5, 1] 2 [1] 0 :=
  C2_lpc_32bit_64bit_agree.2 16 [1] 0 [5, 1] 2 (by norm_num) (by norm_num)
    (by decide) (by decide) (by decide) (by decide)

-- ============================================================================
-- C6 : buffer accounting on ERROR_OUT_OF_DATA
-- ============================================================================

/-- Buffer accounting invariant: consumed plus remaining bytes equal the
buffer length, and the bit buffer never holds more bits than were consumed. -/
def BufInv (len : Nat) (s : St) : Prop :=
  s.buffer_index + s.bytes_left = len ∧ s.bit_buffer_length ≤ 8 * s.buffer_index

/-- After `out_of_data` is raised by a byte-aligned (8-bit) read, no input
bytes remain and fewer than 8 bits sit in the bit buffer. -/
def OodInv (s : St) : Prop :=
  s.out_of_data = true → s.bytes_left = 0 ∧ s.bit_buffer_length < 8

theorem loadTailBytes_acct (k : Nat) (s : St) :
    (loadTailBytes s k).buffer_index = s.buffer_index + k ∧
    (loadTailBytes s k).bytes_left = s.bytes_left ∧
    (loadTailBytes s k).bit_buffer_length = s.bit_buffer_length := by
  induction k generalizing s with
  | zero => exact ⟨rfl, rfl, rfl⟩
  | succ n ih =>
    refine ⟨?_, ?_, ?_⟩
    · show (loadTailBytes _ n).buffer_index = _
      rw [(ih _).1]
      show s.buffer_index + 1 + n = s.buffer_index + (n + 1)
      omega
    · show (loadTailBytes _ n).bytes_left = _
      rw [(ih _).2.1]
    · show (loadTailBytes _ n).bit_buffer_length = _
      rw [(ih _).2.2]

theorem refill_inv (len : Nat) (s : St) (h : BufInv len s) :
    BufInv len ((refill_bit_buffer s).1) := by
  obtain ⟨h1, h2⟩ := h
  unfold refill_bit_buffer
  split_ifs with h4 h0
  · exact ⟨by show s.buffer_index + 4 + (s.bytes_left - 4) = len; omega,
      by show 32 ≤ 8 * (s.buffer_index + 4); omega⟩
  · obtain ⟨e1, e2, e3⟩ := loadTailBytes_acct s.bytes_left s
    exact ⟨by show (loadTailBytes s s.bytes_left).buffer_index + 0 = len; omega,
      by show 8 * s.bytes_left ≤ 8 * (loadTailBytes s s.bytes_left).buffer_index; omega⟩
  · exact ⟨h1, h2⟩

theorem read_uint_inv (len : Nat) (s : St) (n : Nat) (h : BufInv len s) :
    BufInv len ((read_uint s n).1) := by
  obtain ⟨h1, h2⟩ := h
  unfold read_uint
  simp only []
  have hrefill : BufInv len ({ (refill_bit_buffer s).1 with
      bit_buffer_length := (refill_bit_buffer s).1.bit_buffer_length -
        (n - s.bit_buffer_length) } : St) := by
    obtain ⟨r1, r2⟩ := refill_inv len s ⟨h1, h2⟩
    refine ⟨?_, ?_⟩
    · show (refill_bit_buffer s).1.buffer_index + (refill_bit_buffer s).1.bytes_left = len
      exact r1
    · show (refill_bit_buffer s).1.bit_buffer_length - (n - s.bit_buffer_length) ≤
        8 * (refill_bit_buffer s).1.buffer_index
      omega
  split_ifs with hgt hlt h32v
  · exact ⟨h1, h2⟩
  · exact hrefill
  · exact hrefill
  · exact ⟨h1, by show s.bit_buffer_length - n ≤ 8 * s.buffer_index; omega⟩

theorem read_aligned_byte_inv (len : Nat) (s : St) (h : BufInv len s) :
    BufInv len ((read_aligned_byte s).1) :=
  read_uint_inv len s 8 h

theorem read_sint_inv (len : Nat) (s : St) (n : Nat) (h : BufInv len s) :
    BufInv len ((read_sint s n).1) := by
  unfold read_sint
  simp only []
  by_cases h1 : n > 32
  · rw [if_pos h1]
    rcases hu : read_uint s (n - 32) with ⟨s1, upper⟩
    have e1 := read_uint_inv len s (n - 32) h
    rw [hu] at e1
    rcases hl : read_uint s1 32 with ⟨s2, lower⟩
    have e2 := read_uint_inv len s1 32 e1
    rw [hl] at e2
    simp only [hu, hl]
    exact e2
  · rw [if_neg h1]
    rcases hu : read_uint s n with ⟨s1, v⟩
    have e1 := read_uint_inv len s n h
    rw [hu] at e1
    simp only [hu]
    split_ifs <;> exact e1

theorem riceUnaryLoop_inv (len : Nat) (fuel : Nat) (s : St) (u : Nat) (h : BufInv len s) :
    BufInv len ((riceUnaryLoop fuel s u).1) := by
  induction fuel generalizing s u with
  | zero => exact h
  | succ n ih =>
    unfold riceUnaryLoop
    simp only []
    by_cases hbb : s.bit_buffer_length = 0
    · rw [if_pos hbb]
      rcases hrf : refill_bit_buffer s with ⟨t, fl⟩
      have e := refill_inv len s h
      rw [hrf] at e
      simp only [] at e
      simp only [hrf]
      split_ifs with hfl hsv
      · exact e
      · exact ih { t with bit_buffer_length := 0 } _
          ⟨e.1, by show (0 : Nat) ≤ 8 * t.buffer_index; omega⟩
      · exact ⟨e.1, by
          obtain ⟨e1, e2⟩ := e
          show t.bit_buffer_length - _ ≤ 8 * t.buffer_index
          omega⟩
    · rw [if_neg hbb]
      simp only []
      rw [if_neg (by simp)]
      split_ifs with hsv
      · exact ih { s with bit_buffer_length := 0 } _
          ⟨h.1, by show (0 : Nat) ≤ 8 * s.buffer_index; omega⟩
      · exact ⟨h.1, by
          obtain ⟨h1, h2⟩ := h
          show s.bit_buffer_length - _ ≤ 8 * s.buffer_index
          omega⟩

theorem read_rice_sint_inv (len : Nat) (s : St) (param : Nat) (h : BufInv len s) :
    BufInv len ((read_rice_sint s param).1) := by
  unfold read_rice_sint
  rcases hrl : riceUnaryLoop (s.bytes_left + 2) s 0 with ⟨s1, ou⟩
  have e1 := riceUnaryLoop_inv len (s.bytes_left + 2) s 0 h
  rw [hrl] at e1
  simp only [] at e1
  rcases ou with _ | u
  · exact e1
  · simp only []
    rcases hu : read_uint s1 param with ⟨s2, b⟩
    have e2 := read_uint_inv len s1 param e1
    rw [hu] at e2
    simp only [hu]
    exact e2

theorem riceLoop_inv (len param k : Nat) (s : St) (h : BufInv len s) :
    BufInv len ((riceLoop param k s).1) := by
  induction k generalizing s with
  | zero => exact h
  | succ n ih =>
    unfold riceLoop
    rcases h1 : read_rice_sint s param with ⟨s1, v⟩
    have e1 := read_rice_sint_inv len s param h
    rw [h1] at e1
    simp only [] at e1
    rcases h2 : riceLoop param n s1 with ⟨s2, vs⟩
    have e2 := ih s1 e1
    rw [h2] at e2
    simp only [] at e2
    simp only [h1, h2]
    exact e2

theorem sintLoop_inv (len numBits k : Nat) (s : St) (h : BufInv len s) :
    BufInv len ((sintLoop numBits k s).1) := by
  induction k generalizing s with
  | zero => exact h
  | succ n ih =>
    unfold sintLoop
    rcases h1 : read_sint s numBits with ⟨s1, v⟩
    have e1 := read_sint_inv len s numBits h
    rw [h1] at e1
    simp only [] at e1
    rcases h2 : sintLoop numBits n s1 with ⟨s2, vs⟩
    have e2 := ih s1 e1
    rw [h2] at e2
    simp only [] at e2
    simp only [h1, h2]
    exact e2

theorem readSints_inv (len numBits k : Nat) (s : St) (h : BufInv len s) :
    BufInv len ((readSints numBits k s).1) := by
  induction k generalizing s with
  | zero => exact h
  | succ n ih =>
    unfold readSints
    rcases h1 : read_sint s numBits with ⟨s1, v⟩
    have e1 := read_sint_inv len s numBits h
    rw [h1] at e1
    simp only [] at e1
    rcases h2 : readSints numBits n s1 with ⟨s2, vs⟩
    have e2 := ih s1 e1
    rw [h2] at e2
    simp only [] at e2
    simp only [h1, h2]
    exact e2

theorem readResidualPartition_inv (len : Nat) (s : St) (paramBits escapeParam count : Nat)
    (h : BufInv len s) :
    BufInv len ((readResidualPartition s paramBits escapeParam count).1) := by
  unfold readResidualPartition
  rcases h1 : read_uint s paramBits with ⟨s1, param⟩
  have e1 := read_uint_inv len s paramBits h
  rw [h1] at e1
  simp only [] at e1
  simp only [h1]
  split_ifs with hlt hz
  · exact riceLoop_inv len param count s1 e1
  · exact read_uint_inv len s1 5 e1
  · exact sintLoop_inv len _ count _ (read_uint_inv len s1 5 e1)

theorem residualPartitionsLoop_inv (len paramBits escapeParam count k : Nat) (s : St)
    (h : BufInv len s) :
    BufInv len ((residualPartitionsLoop paramBits escapeParam count k s).1) := by
  induction k generalizing s with
  | zero => exact h
  | succ n ih =>
    unfold residualPartitionsLoop
    rcases h1 : readResidualPartition s paramBits escapeParam count with ⟨s1, xs⟩
    have e1 := readResidualPartition_inv len s paramBits escapeParam count h
    rw [h1] at e1
    simp only [] at e1
    rcases h2 : residualPartitionsLoop paramBits escapeParam count n s1 with ⟨s2, ys⟩
    have e2 := ih s1 e1
    rw [h2] at e2
    simp only [] at e2
    simp only [h1, h2]
    exact e2

theorem decodeResidualsWithMethod_inv (len : Nat) (s : St) (pb ep w bs : Nat)
    (h : BufInv len s) :
    BufInv len ((decodeResidualsWithMethod s pb ep w bs).1) := by
  unfold decodeResidualsWithMethod
  rcases h4 : read_uint s 4 with ⟨s1, po⟩
  have e1 := read_uint_inv len s 4 h
  rw [h4] at e1
  simp only [] at e1
  simp only [h4]
  split_ifs with hdiv
  · exact e1
  · rcases hp : readResidualPartition s1 pb ep (bs / 2 ^ po - w) with ⟨s2, xs⟩
    have e2 := readResidualPartition_inv len s1 pb ep (bs / 2 ^ po - w) e1
    rw [hp] at e2
    simp only [] at e2
    rcases hq : residualPartitionsLoop pb ep (bs / 2 ^ po) (2 ^ po - 1) s2 with ⟨s3, ys⟩
    have e3 := residualPartitionsLoop_inv len pb ep (bs / 2 ^ po) (2 ^ po - 1) s2 e2
    rw [hq] at e3
    simp only [] at e3
    simp only [hp, hq]
    exact e3

theorem decode_residuals_inv (len : Nat) (s : St) (w bs : Nat) (h : BufInv len s) :
    BufInv len ((decode_residuals s w bs).1) := by
  unfold decode_residuals
  rcases h2 : read_uint s 2 with ⟨s1, m⟩
  have e1 := read_uint_inv len s 2 h
  rw [h2] at e1
  simp only [] at e1
  simp only [h2]
  split_ifs <;> simp [decodeResidualsWithMethod_inv len _ _ _ _ _ e1, e1]

theorem decode_fixed_subframe_inv (len : Nat) (s : St) (bs off po d : Nat)
    (h : BufInv len s) :
    BufInv len ((decode_fixed_subframe s bs off po d).1) := by
  unfold decode_fixed_subframe
  by_cases hp4 : po > 4
  · rw [if_pos hp4]
    exact h
  · rw [if_neg hp4]
    rcases hw : readSints d po s with ⟨s1, warmups⟩
    have ew := readSints_inv len d po s h
    rw [hw] at ew
    simp only [] at ew
    simp only [hw]
    rcases hdr : decode_residuals
        { s1 with block_samples := setSlice s1.block_samples off warmups } po bs
      with ⟨s2, r, residuals⟩
    have edr := decode_residuals_inv len
      { s1 with block_samples := setSlice s1.block_samples off warmups } po bs ew
    rw [hdr] at edr
    simp only [] at edr
    simp only [hdr]
    split_ifs with hr
    · exact edr
    · exact edr

theorem decode_lpc_subframe_inv (len : Nat) (s : St) (bs off lo d : Nat)
    (h : BufInv len s) :
    BufInv len ((decode_lpc_subframe s bs off lo d).1) := by
  unfold decode_lpc_subframe
  simp only []
  rcases hw : readSints d lo s with ⟨s1, warmups⟩
  have ew := readSints_inv len d lo s h
  rw [hw] at ew
  simp only [] at ew
  simp only [hw]
  rcases hp : read_uint { s1 with block_samples := setSlice s1.block_samples off warmups } 4
    with ⟨s2, precision0⟩
  have ep := read_uint_inv len
    { s1 with block_samples := setSlice s1.block_samples off warmups } 4 ew
  rw [hp] at ep
  simp only [] at ep
  simp only [hp]
  rcases hq : read_sint s2 5 with ⟨s3, qshift⟩
  have eq3 := read_sint_inv len s2 5 ep
  rw [hq] at eq3
  simp only [] at eq3
  simp only [hq]
  rcases hcf : readSints (precision0 + 1) lo s3 with ⟨s4, coefsRev⟩
  have ecf := readSints_inv len (precision0 + 1) lo s3 eq3
  rw [hcf] at ecf
  simp only [] at ecf
  simp only [hcf]
  rcases hdr : decode_residuals s4 lo bs with ⟨s5, r, residuals⟩
  have edr := decode_residuals_inv len s4 lo bs ecf
  rw [hdr] at edr
  simp only [] at edr
  simp only [hdr]
  split_ifs with hr
  · exact edr
  · exact edr

theorem wastedLoop_inv (len fuel : Nat) (s : St) (sh : Nat) (h : BufInv len s) :
    BufInv len ((wastedLoop fuel s sh).1) := by
  induction fuel generalizing s sh with
  | zero => exact h
  | succ n ih =>
    unfold wastedLoop
    rcases h1 : read_uint s 1 with ⟨s1, b⟩
    have e1 := read_uint_inv len s 1 h
    rw [h1] at e1
    simp only [] at e1
    simp only [h1]
    split_ifs with hb0 hood
    · exact e1
    · exact ih s1 _ e1
    · exact e1

theorem subframeTypeDispatch_inv (len : Nat) (s4 : St) (bs d off ty sh : Nat)
    (h : BufInv len s4) :
    BufInv len ((subframeTypeDispatch s4 bs d off ty sh).1) := by
  unfold subframeTypeDispatch
  by_cases h0 : ty = 0
  · rw [if_pos h0]
    rcases h5 : read_sint s4 (effDepth d sh) with ⟨s5, v⟩
    have e5 := read_sint_inv len s4 (effDepth d sh) h
    rw [h5] at e5
    simp only [] at e5
    exact e5
  · rw [if_neg h0]
    by_cases h1 : ty = 1
    · rw [if_pos h1]
      rcases h5 : readSints (effDepth d sh) bs s4 with ⟨s5, vs⟩
      have e5 := readSints_inv len (effDepth d sh) bs s4 h
      rw [h5] at e5
      simp only [] at e5
      exact e5
    · rw [if_neg h1]
      by_cases h8 : 8 ≤ ty ∧ ty ≤ 12
      · rw [if_pos h8]
        rcases hf : decode_fixed_subframe s4 bs off (ty - 8) (effDepth d sh) with ⟨s5, rf⟩
        have ef := decode_fixed_subframe_inv len s4 bs off (ty - 8) (effDepth d sh) h
        rw [hf] at ef
        simp only [] at ef
        simp only []
        split_ifs <;> exact ef
      · rw [if_neg h8]
        by_cases h32 : 32 ≤ ty ∧ ty ≤ 63
        · rw [if_pos h32]
          rcases hf : decode_lpc_subframe s4 bs off (ty - 31) (effDepth d sh) with ⟨s5, rf⟩
          have ef := decode_lpc_subframe_inv len s4 bs off (ty - 31) (effDepth d sh) h
          rw [hf] at ef
          simp only [] at ef
          simp only []
          split_ifs <;> exact ef
        · rw [if_neg h32]
          exact h

theorem decode_subframe_core_inv (len : Nat) (s : St) (bs d off : Nat) (h : BufInv len s) :
    BufInv len ((decode_subframe_core s bs d off).1) := by
  unfold decode_subframe_core
  rcases h1 : read_uint s 1 with ⟨s1, pad⟩
  have e1 := read_uint_inv len s 1 h
  rw [h1] at e1
  simp only [] at e1
  rcases h2 : read_uint s1 6 with ⟨s2, ty⟩
  have e2 := read_uint_inv len s1 6 e1
  rw [h2] at e2
  simp only [] at e2
  rcases h3 : read_uint s2 1 with ⟨s3, sh0⟩
  have e3 := read_uint_inv len s2 1 e2
  rw [h3] at e3
  simp only [] at e3
  simp only [h2, h3]
  by_cases h01 : sh0 = 1
  · rw [if_pos h01]
    rcases hwl : wastedLoop (8 * s3.bytes_left + s3.bit_buffer_length + 2) s3 1
      with ⟨s4, osh⟩
    have e4 := wastedLoop_inv len (8 * s3.bytes_left + s3.bit_buffer_length + 2) s3 1 e3
    rw [hwl] at e4
    simp only [] at e4
    rcases osh with _ | shv
    · simp only []
      exact e4
    · simp only []
      exact subframeTypeDispatch_inv len s4 bs d off ty shv e4
  · rw [if_neg h01]
    simp only []
    exact subframeTypeDispatch_inv len s3 bs d off ty 0 e3

theorem decode_subframe_inv (len : Nat) (s : St) (bs d off : Nat) (h : BufInv len s) :
    BufInv len ((decode_subframe s bs d off).1) := by
  unfold decode_subframe
  rcases hc : decode_subframe_core s bs d off with ⟨s1, r, sh⟩
  have e1 := decode_subframe_core_inv len s bs d off h
  rw [hc] at e1
  simp only [] at e1
  simp only [hc]
  exact e1

theorem indepChannelLoop_inv (len bs d : Nat) (k off : Nat) (s : St) (h : BufInv len s) :
    BufInv len ((indepChannelLoop bs d k off s).1) := by
  induction k generalizing off s with
  | zero => exact h
  | succ n ih =>
    unfold indepChannelLoop
    rcases h1 : decode_subframe s bs d off with ⟨s1, r⟩
    have e1 := decode_subframe_inv len s bs d off h
    rw [h1] at e1
    simp only [] at e1
    simp only [h1]
    split_ifs with hr
    · exact e1
    · exact ih (off + bs) s1 e1

theorem decode_subframes_inv (len : Nat) (s : St) (bs d ca : Nat) (h : BufInv len s) :
    BufInv len ((decode_subframes s bs d ca).1) := by
  unfold decode_subframes
  by_cases h7 : ca ≤ 7
  · rw [if_pos h7]
    exact indepChannelLoop_inv len bs d (ca + 1) 0 s h
  · rw [if_neg h7]
    by_cases h10 : ca ≤ 10
    · rw [if_pos h10]
      generalize (if ca = 9 then 1 else 0 : Nat) = a1
      generalize (if ca = 9 then 0 else 1 : Nat) = a2
      rcases h1 : decode_subframe s bs (d + a1) 0 with ⟨s1, r1⟩
      have e1 := decode_subframe_inv len s bs (d + a1) 0 h
      rw [h1] at e1
      simp only [] at e1
      simp only [h1]
      by_cases hr1 : r1 ≠ FLAC_DECODER_SUCCESS
      · rw [if_pos hr1]
        exact e1
      · rw [if_neg hr1]
        rcases h2 : decode_subframe s1 bs (d + a2) bs with ⟨s2, r2⟩
        have e2 := decode_subframe_inv len s1 bs (d + a2) bs e1
        rw [h2] at e2
        simp only [] at e2
        simp only [h2]
        by_cases hr2 : r2 ≠ FLAC_DECODER_SUCCESS
        · rw [if_pos hr2]
          exact e2
        · rw [if_neg hr2]
          by_cases hc8 : ca = 8
          · rw [if_pos hc8]
            exact e2
          · rw [if_neg hc8]
            by_cases hc9 : ca = 9
            · rw [if_pos hc9]
              exact e2
            · rw [if_neg hc9]
              exact e2
    · rw [if_neg h10]
      exact h

theorem loadTailBytes_oodf (k : Nat) (s : St) :
    (loadTailBytes s k).out_of_data = s.out_of_data := by
  induction k generalizing s with
  | zero => rfl
  | succ n ih => exact ih _

theorem refill_oodf (s : St) :
    ((refill_bit_buffer s).1).out_of_data = s.out_of_data := by
  unfold refill_bit_buffer
  split_ifs <;> simp [loadTailBytes_oodf]

theorem refill_left_le (s : St) :
    ((refill_bit_buffer s).1).bytes_left ≤ s.bytes_left := by
  unfold refill_bit_buffer
  split_ifs with h4 h0
  · show s.bytes_left - 4 ≤ s.bytes_left
    omega
  · obtain ⟨e1, e2, e3⟩ := loadTailBytes_acct s.bytes_left s
    show (0 : Nat) ≤ s.bytes_left
    omega
  · exact le_refl _

theorem read_aligned_byte_ood (s : St) (h : OodInv s) :
    OodInv ((read_aligned_byte s).1) := by
  unfold read_aligned_byte read_uint
  simp only []
  by_cases hgt : 8 > s.bit_buffer_length
  · rw [if_pos hgt]
    by_cases hlt : s.bytes_left < (8 - s.bit_buffer_length + 7) / 8
    · rw [if_pos hlt]
      intro hx
      refine ⟨by show s.bytes_left = 0; omega, by show s.bit_buffer_length < 8; omega⟩
    · rw [if_neg hlt]
      have hoodf : s.out_of_data = false := by
        by_cases hc : s.out_of_data = true
        · obtain ⟨hz, _⟩ := h hc
          omega
        · simpa using hc
      split_ifs with h32v
      · intro hx
        exact absurd (by
          have := refill_oodf s
          exact this ▸ hx) (by simp [hoodf])
      · intro hx
        exact absurd (by
          have := refill_oodf s
          exact this ▸ hx) (by simp [hoodf])
  · rw [if_neg hgt]
    intro hx
    have hs := h hx
    omega

theorem align_to_byte_keeps (len : Nat) (s : St) (h : BufInv len s ∧ OodInv s) :
    BufInv len (align_to_byte s) ∧ OodInv (align_to_byte s) := by
  obtain ⟨⟨h1, h2⟩, ho⟩ := h
  unfold align_to_byte
  split_ifs with h8
  · refine ⟨⟨h1, by show s.bit_buffer_length - s.bit_buffer_length % 8 ≤ 8 * s.buffer_index; omega⟩, ?_⟩
    intro hx
    obtain ⟨hz, hb⟩ := ho hx
    exact ⟨hz, by show s.bit_buffer_length - s.bit_buffer_length % 8 < 8; omega⟩
  · refine ⟨⟨h1, by show (0 : Nat) ≤ 8 * s.buffer_index; omega⟩, ?_⟩
    intro hx
    obtain ⟨hz, hb⟩ := ho hx
    exact ⟨hz, by show (0 : Nat) < 8; omega⟩

theorem align_to_byte_inv (len : Nat) (s : St) (h : BufInv len s) :
    BufInv len (align_to_byte s) := by
  obtain ⟨h1, h2⟩ := h
  unfold align_to_byte
  split_ifs with h8
  · exact ⟨h1, by show s.bit_buffer_length - s.bit_buffer_length % 8 ≤ 8 * s.buffer_index; omega⟩
  · exact ⟨h1, by show (0 : Nat) ≤ 8 * s.buffer_index; omega⟩

theorem findSyncLoop_keeps (len fuel : Nat) (s : St) (ff : Bool)
    (h : BufInv len s ∧ OodInv s) :
    BufInv len ((findSyncLoop fuel s ff).1) ∧ OodInv ((findSyncLoop fuel s ff).1) := by
  induction fuel generalizing s ff with
  | zero => exact h
  | succ n ih =>
    unfold findSyncLoop
    by_cases hff : ff
    · simp only [hff, if_true]
      rcases h2 : read_aligned_byte s with ⟨t2, b2⟩
      have i2 := read_aligned_byte_inv len s h.1
      have o2 := read_aligned_byte_ood s h.2
      rw [h2] at i2 o2
      simp only [] at i2 o2
      simp only [h2]
      by_cases hb2 : b2 = 255
      · rw [if_pos hb2]
        exact ih _ _ ⟨i2, o2⟩
      · rw [if_neg hb2]
        by_cases hb124 : b2 / 2 = 124
        · rw [if_pos hb124]
          exact ⟨i2, o2⟩
        · rw [if_neg hb124]
          exact ih _ _ ⟨i2, o2⟩
    · simp only [hff, if_false, Bool.false_eq_true]
      rcases h1 : read_aligned_byte s with ⟨t, b1⟩
      have i1 := read_aligned_byte_inv len s h.1
      have o1 := read_aligned_byte_ood s h.2
      rw [h1] at i1 o1
      simp only [] at i1 o1
      simp only [h1]
      by_cases hb : b1 = 255
      · simp only [hb, if_pos rfl]
        rcases h2 : read_aligned_byte { t with frame_start_index := t.frame_start_index + 1 }
          with ⟨t2, b2⟩
        have i2 := read_aligned_byte_inv len
          { t with frame_start_index := t.frame_start_index + 1 } ⟨i1.1, i1.2⟩
        have o2 := read_aligned_byte_ood
          { t with frame_start_index := t.frame_start_index + 1 } (fun hx => o1 hx)
        rw [h2] at i2 o2
        simp only [] at i2 o2
        by_cases hb2 : b2 = 255
        · rw [if_pos hb2]
          exact ih _ _ ⟨i2, o2⟩
        · rw [if_neg hb2]
          by_cases hb124 : b2 / 2 = 124
          · rw [if_pos hb124]
            exact ⟨i2, o2⟩
          · rw [if_neg hb124]
            exact ih _ _ ⟨i2, o2⟩
      · simp only [if_neg hb]
        by_cases hod : ({ t with frame_start_index := t.frame_start_index + 1 } : St).out_of_data
        · rw [if_pos hod]
          exact ⟨i1, fun hx => o1 hx⟩
        · rw [if_neg hod]
          exact ih _ _ ⟨⟨i1.1, i1.2⟩, fun hx => o1 hx⟩

theorem find_frame_sync_keeps (len : Nat) (s : St) (h : BufInv len s ∧ OodInv s) :
    BufInv len ((find_frame_sync s).1) ∧ OodInv ((find_frame_sync s).1) := by
  unfold find_frame_sync
  simp only []
  apply findSyncLoop_keeps
  exact align_to_byte_keeps len { s with frame_start_index := 0 } ⟨⟨h.1.1, h.1.2⟩,
    fun hx => h.2 hx⟩

theorem codedNumberLoop_keeps (len fuel : Nat) (s : St) (rh : List Nat) (ni : Nat)
    (h : BufInv len s ∧ OodInv s) :
    BufInv len ((codedNumberLoop fuel s rh ni).1) ∧
    OodInv ((codedNumberLoop fuel s rh ni).1) := by
  induction fuel generalizing s rh ni with
  | zero => exact h
  | succ n ih =>
    unfold codedNumberLoop
    split_ifs with hge
    · rcases hb : read_aligned_byte s with ⟨t, b⟩
      have i1 := read_aligned_byte_inv len s h.1
      have o1 := read_aligned_byte_ood s h.2
      rw [hb] at i1 o1
      simp only [] at i1 o1
      simp only [hb]
      exact ih _ _ _ ⟨i1, o1⟩
    · exact h

theorem dfhValidate_acct (len : Nat) (s7 : St) (rh : List Nat) (b fr : Nat)
    (h : BufInv len s7 ∧ OodInv s7) :
    BufInv len ((dfhValidate s7 rh b fr).1) ∧
    ((dfhValidate s7 rh b fr).2 = FLAC_DECODER_ERROR_OUT_OF_DATA →
      ((dfhValidate s7 rh b fr).1).bytes_left = 0 ∧
      ((dfhValidate s7 rh b fr).1).bit_buffer_length < 8) := by
  unfold dfhValidate
  by_cases hood : s7.out_of_data = true
  · rw [if_pos hood]
    exact ⟨h.1, fun _ => h.2 hood⟩
  · rw [if_neg hood]
    rcases hc : read_aligned_byte s7 with ⟨s8, crc⟩
    have i8 := read_aligned_byte_inv len s7 h.1
    rw [hc] at i8
    simp only [] at i8
    simp only [hc]
    split_ifs <;> exact ⟨i8, by simp⟩

theorem dfhSampleRate_acct (len : Nat) (s6 : St) (rh : List Nat) (a b : Nat)
    (h : BufInv len s6 ∧ OodInv s6) :
    BufInv len ((dfhSampleRate s6 rh a b).1) ∧
    ((dfhSampleRate s6 rh a b).2 = FLAC_DECODER_ERROR_OUT_OF_DATA →
      ((dfhSampleRate s6 rh a b).1).bytes_left = 0 ∧
      ((dfhSampleRate s6 rh a b).1).bit_buffer_length < 8) := by
  unfold dfhSampleRate
  simp only []
  by_cases h12 : a = 12
  · rw [if_pos h12]
    rcases h1 : read_aligned_byte s6 with ⟨t, rb⟩
    have i1 := read_aligned_byte_inv len s6 h.1
    have o1 := read_aligned_byte_ood s6 h.2
    rw [h1] at i1 o1
    simp only [] at i1 o1
    simp only [h1]
    exact dfhValidate_acct len t (rh ++ [rb]) b (rb * 1000) ⟨i1, o1⟩
  · rw [if_neg h12]
    by_cases h13 : a = 13
    · rw [if_pos h13]
      rcases h1 : read_aligned_byte s6 with ⟨t1, rb1⟩
      have i1 := read_aligned_byte_inv len s6 h.1
      have o1 := read_aligned_byte_ood s6 h.2
      rw [h1] at i1 o1
      simp only [] at i1 o1
      rcases h2 : read_aligned_byte t1 with ⟨t2, rb2⟩
      have i2 := read_aligned_byte_inv len t1 i1
      have o2 := read_aligned_byte_ood t1 o1
      rw [h2] at i2 o2
      simp only [] at i2 o2
      simp only [h1, h2]
      exact dfhValidate_acct len t2 (rh ++ [rb1, rb2]) b (uor (rb1 * 256) rb2) ⟨i2, o2⟩
    · rw [if_neg h13]
      by_cases h14 : a = 14
      · rw [if_pos h14]
        rcases h1 : read_aligned_byte s6 with ⟨t1, rb1⟩
        have i1 := read_aligned_byte_inv len s6 h.1
        have o1 := read_aligned_byte_ood s6 h.2
        rw [h1] at i1 o1
        simp only [] at i1 o1
        rcases h2 : read_aligned_byte t1 with ⟨t2, rb2⟩
        have i2 := read_aligned_byte_inv len t1 i1
        have o2 := read_aligned_byte_ood t1 o1
        rw [h2] at i2 o2
        simp only [] at i2 o2
        simp only [h1, h2]
        exact dfhValidate_acct len t2 (rh ++ [rb1, rb2]) b (uor (rb1 * 256) rb2 * 10) ⟨i2, o2⟩
      · rw [if_neg h14]
        by_cases h0 : a = 0
        · rw [if_pos h0]
          exact dfhValidate_acct len s6 rh b s6.sample_rate h
        · rw [if_neg h0]
          by_cases h11 : 1 ≤ a ∧ a ≤ 11
          · rw [if_pos h11]
            exact dfhValidate_acct len s6 rh b (sampleRateTable a) h
          · rw [if_neg h11]
            exact ⟨h.1, by simp⟩

theorem dfhBlockSize_acct (len : Nat) (s5 : St) (rh : List Nat) (c a b : Nat)
    (h : BufInv len s5 ∧ OodInv s5) :
    BufInv len ((dfhBlockSize s5 rh c a b).1) ∧
    ((dfhBlockSize s5 rh c a b).2 = FLAC_DECODER_ERROR_OUT_OF_DATA →
      ((dfhBlockSize s5 rh c a b).1).bytes_left = 0 ∧
      ((dfhBlockSize s5 rh c a b).1).bit_buffer_length < 8) := by
  unfold dfhBlockSize
  simp only []
  by_cases h6 : c = 6
  · rw [if_pos h6]
    rcases hb1 : read_aligned_byte s5 with ⟨t, sb⟩
    have i1 := read_aligned_byte_inv len s5 h.1
    have o1 := read_aligned_byte_ood s5 h.2
    rw [hb1] at i1 o1
    simp only [] at i1 o1
    simp only [hb1]
    exact dfhSampleRate_acct len { t with curr_frame_block_size := sb + 1 } (rh ++ [sb]) a b
      ⟨⟨i1.1, i1.2⟩, fun hx => o1 hx⟩
  · rw [if_neg h6]
    by_cases h7 : c = 7
    · rw [if_pos h7]
      rcases hb1 : read_aligned_byte s5 with ⟨t1, sb1⟩
      have i1 := read_aligned_byte_inv len s5 h.1
      have o1 := read_aligned_byte_ood s5 h.2
      rw [hb1] at i1 o1
      simp only [] at i1 o1
      rcases hb2 : read_aligned_byte { t1 with curr_frame_block_size := sb1 * 256 }
        with ⟨t2, sb2⟩
      have i2 := read_aligned_byte_inv len { t1 with curr_frame_block_size := sb1 * 256 }
        ⟨i1.1, i1.2⟩
      have o2 := read_aligned_byte_ood { t1 with curr_frame_block_size := sb1 * 256 }
        (fun hx => o1 hx)
      rw [hb2] at i2 o2
      simp only [] at i2 o2
      simp only [hb1, hb2]
      exact dfhSampleRate_acct len
        { t2 with curr_frame_block_size := uor t2.curr_frame_block_size sb2 + 1 }
        (rh ++ [sb1, sb2]) a b ⟨⟨i2.1, i2.2⟩, fun hx => o2 hx⟩
    · rw [if_neg h7]
      exact dfhSampleRate_acct len s5 rh a b h

theorem dfhDepth_acct (len : Nat) (u : St) (rh : List Nat) (b3 bsc src : Nat)
    (h : BufInv len u ∧ OodInv u) :
    BufInv len ((dfhDepth u rh b3 bsc src).1) ∧
    ((dfhDepth u rh b3 bsc src).2 = FLAC_DECODER_ERROR_OUT_OF_DATA →
      ((dfhDepth u rh b3 bsc src).1).bytes_left = 0 ∧
      ((dfhDepth u rh b3 bsc src).1).bit_buffer_length < 8) := by
  unfold dfhDepth
  simp only []
  by_cases hb : uand b3 14 / 2 = 3
  · rw [if_pos hb]
    exact ⟨⟨h.1.1, h.1.2⟩, by simp⟩
  · rw [if_neg hb]
    have hc := codedNumberLoop_keeps len 8
      (read_aligned_byte { { u with curr_frame_channel_assign := b3 / 16 } with
        curr_frame_sample_depth :=
          match uand b3 14 / 2 with
          | 0 => u.sample_depth
          | 1 => 8 | 2 => 12 | 4 => 16 | 5 => 20 | 6 => 24 | 7 => 32
          | _ => u.curr_frame_sample_depth }).1
      (rh ++ [(read_aligned_byte { { u with curr_frame_channel_assign := b3 / 16 } with
        curr_frame_sample_depth :=
          match uand b3 14 / 2 with
          | 0 => u.sample_depth
          | 1 => 8 | 2 => 12 | 4 => 16 | 5 => 20 | 6 => 24 | 7 => 32
          | _ => u.curr_frame_sample_depth }).2])
      (read_aligned_byte { { u with curr_frame_channel_assign := b3 / 16 } with
        curr_frame_sample_depth :=
          match uand b3 14 / 2 with
          | 0 => u.sample_depth
          | 1 => 8 | 2 => 12 | 4 => 16 | 5 => 20 | 6 => 24 | 7 => 32
          | _ => u.curr_frame_sample_depth }).2
      ⟨read_aligned_byte_inv len _ ⟨h.1.1, h.1.2⟩,
       read_aligned_byte_ood _ (fun hx => h.2 hx)⟩
    exact dfhBlockSize_acct len _ _ bsc src (uand b3 14 / 2) ⟨hc.1, hc.2⟩

theorem decode_frame_header_acct (len : Nat) (s s' : St) (r : FLACDecoderResult)
    (hd : decode_frame_header s = (s', r)) (h : BufInv len s ∧ OodInv s) :
    BufInv len s' ∧
    (r = FLAC_DECODER_ERROR_OUT_OF_DATA →
      s'.bytes_left = 0 ∧ s'.bit_buffer_length < 8) := by
  unfold decode_frame_header at hd
  rcases hfs : find_frame_sync s with ⟨s1, so⟩
  have hks := find_frame_sync_keeps len s h
  rw [hfs] at hd hks
  simp only [] at hks
  rcases so with _ | ⟨sync0, sync1⟩
  · simp only [] at hd
    injection hd with h1 h2
    subst h1
    subst h2
    exact ⟨hks.1, by simp⟩
  · simp only [] at hd
    by_cases hmag : uand sync1 2 ≠ 0
    · rw [if_pos hmag] at hd
      injection hd with h1 h2
      subst h1
      subst h2
      exact ⟨hks.1, by simp⟩
    · rw [if_neg hmag] at hd
      rcases hb2 : read_aligned_byte s1 with ⟨s2, b2⟩
      have i2 := read_aligned_byte_inv len s1 hks.1
      have o2 := read_aligned_byte_ood s1 hks.2
      rw [hb2] at hd i2 o2
      simp only [] at hd i2 o2
      by_cases h255 : b2 = 255
      · rw [if_pos h255] at hd
        injection hd with h1 h2
        subst h1
        subst h2
        exact ⟨i2, by simp⟩
      · rw [if_neg h255] at hd
        by_cases hbsc : b2 / 16 = 0 ∨ b2 / 16 > 15
        · rw [if_pos hbsc] at hd
          injection hd with h1 h2
          subst h1
          subst h2
          exact ⟨i2, by simp⟩
        · rw [if_neg hbsc] at hd
          generalize hbs2 : (if b2 / 16 = 1 then { s2 with curr_frame_block_size := 192 }
              else if 2 ≤ b2 / 16 ∧ b2 / 16 ≤ 5 then
                { s2 with curr_frame_block_size := 576 * 2 ^ (b2 / 16 - 2) }
              else if b2 / 16 ≤ 7 then s2
              else { s2 with curr_frame_block_size := 256 * 2 ^ (b2 / 16 - 8) }) = t2 at hd
          have ht2k : BufInv len t2 ∧ OodInv t2 := by
            rw [← hbs2]
            split_ifs <;> exact ⟨⟨i2.1, i2.2⟩, fun hx => o2 hx⟩
          rcases hb3 : read_aligned_byte t2 with ⟨s3, b3⟩
          have i3 := read_aligned_byte_inv len t2 ht2k.1
          have o3 := read_aligned_byte_ood t2 ht2k.2
          rw [hb3] at hd i3 o3
          simp only [] at hd i3 o3
          by_cases h3255 : b3 = 255
          · rw [if_pos h3255] at hd
            injection hd with h1 h2
            subst h1
            subst h2
            exact ⟨i3, by simp⟩
          · rw [if_neg h3255] at hd
            have h1 := congrArg Prod.fst hd
            have h2 := congrArg Prod.snd hd
            simp only [] at h1 h2
            have hda := dfhDepth_acct len s3 ([sync0, sync1] ++ [b2] ++ [b3]) b3 (b2 / 16)
              (uand b2 15) ⟨i3, o3⟩
            rw [h1, h2] at hda
            exact hda

theorem dfSetup_buffer_index (s : St) (buffer : List Nat) :
    (dfSetup s buffer).buffer_index = 0 := by
  unfold dfSetup
  simp only []
  split_ifs <;> rfl

theorem dfSetup_bbl (s : St) (buffer : List Nat) :
    (dfSetup s buffer).bit_buffer_length = s.bit_buffer_length := by
  unfold dfSetup
  simp only []
  split_ifs <;> rfl

theorem dfSetup_ood (s : St) (buffer : List Nat) :
    (dfSetup s buffer).out_of_data = false := by
  unfold dfSetup
  simp only []
  split_ifs <;> rfl

/-- **C6** (amended): when `decode_frame` starts from a clean bit buffer and
returns `ERROR_OUT_OF_DATA`, `get_bytes_index` reports at least
`buffer_length - 1` bytes consumed — the whole buffer up to at most one
byte — never 0.  A caller that drops `get_bytes_index` bytes after an
`ERROR_OUT_OF_DATA` therefore loses the unfinished frame; it must retain its
buffer (as the bundled `flac_to_wav` example does) and supply more data.
(`C6_bytes_index_not_zero_on_out_of_data` is the counterexample to the
claimed `bytes_consumed == 0`.) -/
theorem C6_out_of_data_reports_buffer_consumed (s : St) (buffer : List Nat)
    (hb : s.bit_buffer_length = 0)
    (hr : (decode_frame s buffer).2.1 = FLAC_DECODER_ERROR_OUT_OF_DATA) :
    buffer.length ≤ get_bytes_index (decode_frame s buffer).1 + 1 := by
  rcases hdf : decode_frame s buffer with ⟨sf, rr, nn⟩
  rw [hdf] at hr
  simp only [] at hr
  unfold decode_frame at hdf
  simp only [] at hdf
  have hinv : BufInv buffer.length (dfSetup s buffer) := by
    refine ⟨?_, ?_⟩
    · rw [dfSetup_buffer_index, dfSetup_bytes_left]
      omega
    · rw [dfSetup_buffer_index, dfSetup_bbl, hb]
  have hood : OodInv (dfSetup s buffer) := by
    intro hx
    rw [dfSetup_ood] at hx
    exact absurd hx (by simp)
  by_cases hz : (dfSetup s buffer).bytes_left = 0
  · rw [if_pos hz] at hdf
    injection hdf with e1 e23
    injection e23 with e2 e3
    rw [← e2] at hr
    simp at hr
  · rw [if_neg hz] at hdf
    unfold dfBody at hdf
    rcases hd : decode_frame_header (dfSetup s buffer) with ⟨s1, r1⟩
    obtain ⟨hinv1, hoodimp⟩ :=
      decode_frame_header_acct buffer.length _ _ _ hd ⟨hinv, hood⟩
    rw [hd] at hdf
    simp only [] at hdf
    by_cases hr1 : r1 ≠ FLAC_DECODER_SUCCESS
    · rw [if_pos hr1] at hdf
      injection hdf with e1 e23
      injection e23 with e2 e3
      subst e1
      have hro : r1 = FLAC_DECODER_ERROR_OUT_OF_DATA := by rw [e2]; exact hr
      obtain ⟨hz1, hb1⟩ := hoodimp hro
      obtain ⟨hi1, hi2⟩ := hinv1
      show buffer.length ≤ s1.buffer_index - s1.bit_buffer_length / 8 + 1
      omega
    · rw [if_neg hr1] at hdf
      by_cases hbs : s1.curr_frame_block_size > s1.max_block_size
      · rw [if_pos hbs] at hdf
        injection hdf with e1 e23
        injection e23 with e2 e3
        rw [← e2] at hr
        simp at hr
      · rw [if_neg hbs] at hdf
        unfold dfTail at hdf
        rcases hds : decode_subframes s1 s1.curr_frame_block_size s1.curr_frame_sample_depth
          s1.curr_frame_channel_assign with ⟨s2, rs⟩
        have hinv2 := decode_subframes_inv buffer.length s1 s1.curr_frame_block_size
          s1.curr_frame_sample_depth s1.curr_frame_channel_assign hinv1
        rw [hds] at hdf hinv2
        simp only [] at hdf hinv2
        have hinv3 := align_to_byte_inv buffer.length s2 hinv2
        by_cases hlt2 : (align_to_byte s2).bit_buffer_length / 8 +
            (align_to_byte s2).bytes_left < 2
        · rw [if_pos hlt2] at hdf
          injection hdf with e1 e23
          injection e23 with e2 e3
          subst e1
          obtain ⟨hi1, hi2⟩ := hinv3
          show buffer.length ≤
            (align_to_byte s2).buffer_index - (align_to_byte s2).bit_buffer_length / 8 + 1
          omega
        · rw [if_neg hlt2] at hdf
          rcases hcrc : read_uint (align_to_byte s2) 16 with ⟨s4, crc⟩
          rw [hcrc] at hdf
          simp only [] at hdf
          split_ifs at hdf
          · injection hdf with e1 e23
            injection e23 with e2 e3
            rw [← e2] at hr
            simp at hr
          · injection hdf with e1 e23
            injection e23 with e2 e3
            rw [← e2] at hr
            simp at hr

/-- C6 witness at the counterexample input: the whole 6-byte buffer is
reported consumed on `ERROR_OUT_OF_DATA`. -/
theorem C6_out_of_data_reports_buffer_consumed_witness :
    (stStereo16.bit_buffer_length = 0 ∧
     (decode_frame stStereo16 frameReserved11Short).2.1 = FLAC_DECODER_ERROR_OUT_OF_DATA) ∧
    frameReserved11Short.length ≤
      get_bytes_index (decode_frame stStereo16 frameReserved11Short).1 + 1 :=
  ⟨⟨by decide, by decide⟩,
   C6_out_of_data_reports_buffer_consumed stStereo16 frameReserved11Short
     (by decide) (by decide)⟩
